import Mathlib

/-!
# KsanaLLM: sampler and batch scheduler

A shallow embedding of `Sampler::Sampling` (src/ksana_llm/samplers/sampler.cpp)
and of the scheduler façade declared in
src/ksana_llm/batch_manager/batch_scheduler/batch_scheduler.h.

Conventions of the embedding

* `int` values are `Int`, sizes and indices are `Nat`; the only narrowing
  conversions of the translated code (`size_t` to `uint32_t`, `uint32_t` to
  `int`) are written out with an explicit `% 2 ^ 32`.
* `float` values are IEEE-754 binary32 bit patterns; `F32.eq` is the C++
  `operator==` (a NaN equals nothing, `+0` equals `-0`).
* Pointers are addresses (`Nat`, `0` is `nullptr`).  The vectors reached
  through `SamplingRequest::output_tokens` live in a `Heap`, so that two
  requests may alias one vector.
* `operator[]` and `memcpy` outside a host vector, or outside a device
  sub-buffer, do not return a value: the embedding stops with a `Fault`.
* CUDA calls are sequential and `cudaMemcpyAsync` itself always succeeds
  (`CUDA_CHECK` never fires).
* The batch size `bs` and the loop counters `req_index` and `i` count requests
  of one batch; they are `Nat`, without wrap-around.
* The kernel `TopkSampling::Forward` and the default-constructed
  `SamplingDevideParameter` are parameters of the embedding.
-/

namespace ksana_llm

/-! ## Values -/

/-- IEEE-754 binary32 value, stored as its bit pattern (read modulo `2 ^ 32`). -/
structure F32 where
  bits : Nat
deriving DecidableEq, Repr

/-- The 32-bit word of a float. -/
def F32.word (x : F32) : Nat := x.bits % 2 ^ 32

/-- Exponent all ones and mantissa non-zero. -/
def F32.isNaN (x : F32) : Bool := (x.word / 2 ^ 23) % 256 == 255 && x.word % 2 ^ 23 != 0

/-- Either signed zero. -/
def F32.isZero (x : F32) : Bool := x.word % 2 ^ 31 == 0

/-- C++ `operator==` on `float`. -/
def F32.eq (x y : F32) : Bool :=
  !x.isNaN && !y.isNaN && (x.word == y.word || (x.isZero && y.isZero))

/-- The literal `0.0f`. -/
def F32.zero : F32 := ⟨0⟩

/-- The literal `1.0f`. -/
def F32.one : F32 := ⟨0x3F800000⟩

/-- Conversion of a `uint32_t` to `int` (two's complement). -/
def u32ToInt (u : Nat) : Int :=
  if u % 2 ^ 32 < 2 ^ 31 then ((u % 2 ^ 32 : Nat) : Int) else ((u % 2 ^ 32 : Nat) : Int) - 2 ^ 32

/-- Return codes; the codes the translated sources do not name are `RET_OTHER`. -/
inductive RetCode where
  | RET_SUCCESS
  | RET_INVALID_ARGUMENT
  | RET_SEGMENT_FAULT
  | RET_OTHER (n : Nat)
deriving DecidableEq, Repr

/-- A `Status` (utils/status.h is not among the translated files): a return
code and a message, as the two-argument constructor calls of sampler.cpp give
them; the default-constructed `Status()` is success. -/
structure Status where
  code : RetCode := RetCode.RET_SUCCESS
  message : String := ""
deriving DecidableEq, Repr

/-- `Status::OK()`: the code is `RET_SUCCESS`. -/
def Status.OK (s : Status) : Bool := decide (s.code = RetCode.RET_SUCCESS)

/-- Fields of `SamplingConfig` (utils/request.h). -/
structure SamplingConfig where
  beam_width : Int
  topk : Int
  topp : F32
  temperature : F32
deriving DecidableEq, Repr

/-- The one field of `ModelConfig` the sampler reads. -/
structure ModelConfig where
  vocab_size : Int
deriving DecidableEq, Repr

/-- The fields of `SamplingRequest` the sampler reads.  `logits_buf` holds one
device pointer per rank, `output_tokens` is the address of the request's
output-token vector. -/
structure SamplingRequest where
  model_config : ModelConfig
  sampling_config : SamplingConfig
  logits_buf : List Nat
  logits_offset : Nat
  output_tokens : Nat
deriving DecidableEq, Repr

/-- The kernel parameter block `SamplingDevideParameter`. -/
structure SamplingDevideParameter where
  device_topKs : Nat
  device_output_tokens_ptrs : Nat
  device_curandstates : Nat
  vocab_size_padded : Int
  max_topK : Int
  bs : Nat
deriving DecidableEq, Repr

/-- Contents of the three device sub-buffers the sampler copies to and from,
indexed by slot. -/
structure DeviceMem where
  offset : Nat → Nat
  topKs : Nat → Int
  output_tokens : Nat → Nat

/-- The output-token vectors, by address. -/
abbrev Heap := Nat → List Int

/-- An access outside a vector or a device sub-buffer. -/
inductive Fault where
  | host_range
  | device_range
  | logits_buf_range
deriving DecidableEq, Repr

/-- The sampling kernel object: `Forward` gets the logits pointer, the offset
and output-token buffers, the parameter block and the device memory, and gives
back a status and the device memory it leaves. -/
structure TopkSampling where
  Forward : (device_logits device_offset device_output_tokens : Nat) →
    SamplingDevideParameter → DeviceMem → Status × DeviceMem

/-- The fields of `BatchSchedulerConfig` that the sampler and the scheduler read. -/
structure BatchSchedulerConfig where
  max_batch_size : Nat
  max_vocab_size : Nat
  max_waiting_queue_len : Nat
  max_input_len : Nat
deriving DecidableEq, Repr

/-- The members of `Sampler`. -/
structure Sampler where
  batch_schedule_config_ : BatchSchedulerConfig
  rank_ : Int
  device_buffer_ : Nat
  device_output_tokens_ : Nat
  device_offset_ : Nat
  device_topKs_ : Nat
  device_curandstates_ : Nat
  device_output_tokens_ptrs_ : Nat
  host_offset_ : List Nat
  host_topKs_ : List Int
  host_output_tokens_ : List Nat
  topk_sampling_ : TopkSampling

/-! ## Sampler::Sampler -/

/-- The constructor (sampler.cpp 12-45).  `device_buffer` is the address the
block manager gives for the contiguous allocation, `sizeof_curandState_t` the
size of one random state, `mkTopk` the `TopkSampling` constructor.  `uint32_t`
and `int` are four bytes wide (the constructor aborts otherwise).  The three
host vectors are resized to `max_batch_size` zero-initialised slots. -/
def Sampler.ctor (batch_scheduler_config : BatchSchedulerConfig) (rank : Int)
    (device_buffer sizeof_curandState_t : Nat)
    (mkTopk : (max_batch_size max_vocab_size device_curandstates : Nat) → TopkSampling) : Sampler :=
  let max_batch_size := batch_scheduler_config.max_batch_size
  let device_output_tokens_ := device_buffer
  let device_offset_ := device_output_tokens_ + 4 * max_batch_size
  let device_topKs_ := device_offset_ + 4 * max_batch_size
  let device_curandstates_ := device_topKs_ + 4 * max_batch_size
  let device_output_tokens_ptrs_ := device_curandstates_ + sizeof_curandState_t * max_batch_size
  { batch_schedule_config_ := batch_scheduler_config
    rank_ := rank
    device_buffer_ := device_buffer
    device_output_tokens_ := device_output_tokens_
    device_offset_ := device_offset_
    device_topKs_ := device_topKs_
    device_curandstates_ := device_curandstates_
    device_output_tokens_ptrs_ := device_output_tokens_ptrs_
    host_offset_ := List.replicate max_batch_size 0
    host_topKs_ := List.replicate max_batch_size 0
    host_output_tokens_ := List.replicate max_batch_size 0
    topk_sampling_ := mkTopk max_batch_size batch_scheduler_config.max_vocab_size
      device_curandstates_ }

/-! ## Sampler::Sampling -/

/-- `v[i] = x` on a host vector. -/
def hostSet {α : Type} (v : List α) (i : Nat) (x : α) : Except Fault (List α) :=
  if i < v.length then Except.ok (v.set i x) else Except.error Fault.host_range

/-- `cudaMemcpyAsync(dev, host.data(), sizeof(T) * count, cudaMemcpyHostToDevice)`
into a device sub-buffer of `region` slots. -/
def copyToDevice {α : Type} (dev : Nat → α) (host : List α) (count region : Nat) :
    Except Fault (Nat → α) :=
  if host.length < count then Except.error Fault.host_range
  else if region < count then Except.error Fault.device_range
  else Except.ok (fun i => match (host.take count)[i]? with
    | some v => v
    | none => dev i)

/-- `cudaMemcpyAsync(host.data(), dev, sizeof(T) * count, cudaMemcpyDeviceToHost)`
from a device sub-buffer of `region` slots. -/
def copyToHost {α : Type} (host : List α) (dev : Nat → α) (count region : Nat) :
    Except Fault (List α) :=
  if host.length < count then Except.error Fault.host_range
  else if region < count then Except.error Fault.device_range
  else Except.ok ((List.range count).map dev ++ host.drop count)

/-- The locals of `Sampling` that the validation loop updates, with the two
host vectors it writes. -/
structure LoopState where
  use_arg_max : Bool
  req_index : Nat
  device_logits : Nat
  sampling_devide_parameter : SamplingDevideParameter
  host_offset_ : List Nat
  host_topKs_ : List Int
deriving DecidableEq, Repr

/-- How one pass through the loop body ends: it falls through to the next
request, it returns a status, or it makes an out-of-range access. -/
inductive Flow where
  | next (st : LoopState)
  | ret (s : Status) (st : LoopState)
  | fault (f : Fault)
deriving DecidableEq, Repr

/-- The status of the logits check. -/
def statusDifferentLogits : Status :=
  ⟨RetCode.RET_SEGMENT_FAULT, "sampling for different logits not implemented"⟩

/-- The status of the top-k bound. -/
def statusTopk : Status := ⟨RetCode.RET_INVALID_ARGUMENT, "topk > 1024."⟩

/-- The status of the top-p check. -/
def statusTopp : Status := ⟨RetCode.RET_INVALID_ARGUMENT, "sampling for topp not implemented"⟩

/-- The status of the temperature check. -/
def statusTemperature : Status :=
  ⟨RetCode.RET_INVALID_ARGUMENT, "sampling for temperature not implemented"⟩

/-- The status of the beam-width check. -/
def statusBeamWidth : Status :=
  ⟨RetCode.RET_INVALID_ARGUMENT, "sampling for beam_width > 1 not implemented"⟩

/-- The body of `for (auto& sampling_req : sampling_reqs)` (sampler.cpp 62-92). -/
def loopBody (rank_ : Int) (st : LoopState) (sampling_req : SamplingRequest) : Flow :=
  let sampling_config := sampling_req.sampling_config
  match sampling_req.logits_buf[rank_.toNat]? with
  | none => Flow.fault Fault.logits_buf_range
  | some logits =>
    if st.device_logits = logits ∨ st.device_logits = 0 then
      let st1 : LoopState :=
        { st with
          device_logits := logits
          sampling_devide_parameter :=
            { st.sampling_devide_parameter with
              vocab_size_padded := sampling_req.model_config.vocab_size } }
      match hostSet st1.host_offset_ st1.req_index (sampling_req.logits_offset % 2 ^ 32) with
      | Except.error f => Flow.fault f
      | Except.ok off =>
        let st2 : LoopState := { st1 with host_offset_ := off }
        if sampling_config.beam_width = 1 then
          if F32.eq sampling_config.temperature F32.zero then
            if F32.eq sampling_config.topp F32.zero ∨ F32.eq sampling_config.topp F32.one then
              if sampling_config.topk > 1024 then
                Flow.ret statusTopk st2
              else
                match hostSet st2.host_topKs_ st2.req_index sampling_config.topk with
                | Except.error f => Flow.fault f
                | Except.ok tk =>
                  Flow.next
                    { st2 with
                      host_topKs_ := tk
                      sampling_devide_parameter :=
                        { st2.sampling_devide_parameter with
                          max_topK :=
                            if st2.sampling_devide_parameter.max_topK > sampling_config.topk
                            then st2.sampling_devide_parameter.max_topK
                            else sampling_config.topk }
                      use_arg_max := st2.use_arg_max && decide (sampling_config.topk = 1)
                      req_index := st2.req_index + 1 }
            else Flow.ret statusTopp st2
          else Flow.ret statusTemperature st2
        else Flow.ret statusBeamWidth st2
    else Flow.ret statusDifferentLogits st

/-- The validation loop over the batch, in batch order. -/
def validateLoop (rank_ : Int) : LoopState → List SamplingRequest → Flow
  | st, [] => Flow.next st
  | st, sampling_req :: rest =>
    match loopBody rank_ st sampling_req with
    | Flow.next st1 => validateLoop rank_ st1 rest
    | Flow.ret s st1 => Flow.ret s st1
    | Flow.fault f => Flow.fault f

/-- The locals at loop entry; `dflt` is the default-constructed parameter block. -/
def loopInit (self : Sampler) (dflt : SamplingDevideParameter) (bs : Nat) : LoopState :=
  { use_arg_max := true
    req_index := 0
    device_logits := 0
    sampling_devide_parameter := { dflt with bs := bs }
    host_offset_ := self.host_offset_
    host_topKs_ := self.host_topKs_ }

/-- The parameter block handed to `Forward` (sampler.cpp 97-103). -/
def kernelParameter (self : Sampler) (st : LoopState) : SamplingDevideParameter :=
  if !st.use_arg_max then
    { st.sampling_devide_parameter with
      device_topKs := self.device_topKs_
      device_output_tokens_ptrs := self.device_output_tokens_ptrs_
      device_curandstates := self.device_curandstates_ }
  else st.sampling_devide_parameter

/-- The copy of `host_topKs_` to the device, made only on the top-k path. -/
def copyTopKs (self : Sampler) (st : LoopState) (dev : DeviceMem) : Except Fault DeviceMem :=
  if !st.use_arg_max then
    match copyToDevice dev.topKs st.host_topKs_ st.sampling_devide_parameter.bs
        self.batch_schedule_config_.max_batch_size with
    | Except.error f => Except.error f
    | Except.ok tk => Except.ok { dev with topKs := tk }
  else Except.ok dev

/-- The loop `for (int i = 0; i < bs; i++) sampling_reqs[i].output_tokens->push_back(host_output_tokens_[i])`,
from slot `i` on. -/
def pushLoop (host_output_tokens_ : List Nat) : Nat → List SamplingRequest → Heap → Except Fault Heap
  | _, [], heap => Except.ok heap
  | i, sampling_req :: rest, heap =>
    match host_output_tokens_[i]? with
    | none => Except.error Fault.host_range
    | some tok =>
      pushLoop host_output_tokens_ (i + 1) rest
        (Function.update heap sampling_req.output_tokens
          (heap sampling_req.output_tokens ++ [u32ToInt tok]))

/-- What a call of `Sampling` leaves behind. -/
structure Outcome where
  status : Status
  sampler : Sampler
  device : DeviceMem
  heap : Heap

/-- `Sampler::Sampling` (sampler.cpp 54-114).  `STATUS_CHECK_RETURN` returns
the status of `Forward` when it is not OK.  The result is the status together
with the sampler, the device buffers and the output-token vectors as the call
leaves them. -/
def Sampling (self : Sampler) (dflt : SamplingDevideParameter) (dev : DeviceMem) (heap : Heap)
    (sampling_reqs : List SamplingRequest) : Except Fault Outcome :=
  if self.rank_ = 0 then
    match validateLoop self.rank_ (loopInit self dflt sampling_reqs.length) sampling_reqs with
    | Flow.fault f => Except.error f
    | Flow.ret s st =>
      Except.ok ⟨s, { self with host_offset_ := st.host_offset_, host_topKs_ := st.host_topKs_ },
        dev, heap⟩
    | Flow.next st =>
      let self1 : Sampler :=
        { self with host_offset_ := st.host_offset_, host_topKs_ := st.host_topKs_ }
      let bs := st.sampling_devide_parameter.bs
      match copyToDevice dev.offset st.host_offset_ bs
          self.batch_schedule_config_.max_batch_size with
      | Except.error f => Except.error f
      | Except.ok off =>
        match copyTopKs self st { dev with offset := off } with
        | Except.error f => Except.error f
        | Except.ok dev1 =>
          let r := self.topk_sampling_.Forward st.device_logits self.device_offset_
            self.device_output_tokens_ (kernelParameter self st) dev1
          if r.1.OK then
            match copyToHost self.host_output_tokens_ r.2.output_tokens bs
                self.batch_schedule_config_.max_batch_size with
            | Except.error f => Except.error f
            | Except.ok out =>
              match pushLoop out 0 sampling_reqs heap with
              | Except.error f => Except.error f
              | Except.ok heap1 =>
                Except.ok ⟨{}, { self1 with host_output_tokens_ := out }, r.2, heap1⟩
          else Except.ok ⟨r.1, self1, r.2, heap⟩
  else Except.ok ⟨{}, self, dev, heap⟩

/-! ## Properties the sampler is checked against -/

/-- The sampling configurations the current strategy implements: beam width 1,
temperature equal to `0.0f`, top-p equal to `0.0f` or `1.0f`. -/
def SamplingConfig.supported (c : SamplingConfig) : Prop :=
  c.beam_width = 1 ∧ F32.eq c.temperature F32.zero = true ∧
    (F32.eq c.topp F32.zero = true ∨ F32.eq c.topp F32.one = true)

instance SamplingConfig.decidableSupported (c : SamplingConfig) : Decidable c.supported := by
  unfold SamplingConfig.supported
  infer_instance

/-- The three host vectors have the size the constructor gave them. -/
def Sampler.sized (self : Sampler) (m : Nat) : Prop :=
  self.host_offset_.length = m ∧ self.host_topKs_.length = m ∧
    self.host_output_tokens_.length = m ∧ self.batch_schedule_config_.max_batch_size = m

/-- The logits pointer a request carries for a rank (`0` when the request has
no entry for the rank). -/
def SamplingRequest.logits (r : SamplingRequest) (rank_ : Int) : Nat :=
  (r.logits_buf[rank_.toNat]?).getD 0

/-! ## BatchScheduler

Only the declaration of the scheduler is part of the translated sources
(batch_scheduler.h); its behaviour is taken from sections 4.3 and 4.4 of the
specification. -/

/-- Modelled from the spec: the fields of a request (section 3) the scheduler
looks at; runtime/infer_request.h is not among the translated files.
Identity, token state and the number of cache blocks the request holds. -/
structure InferRequest where
  req_id : Nat
  input_tokens : List Int
  output_tokens : List Int
  blocks : Nat
deriving DecidableEq, Repr

/-- Modelled from the spec: the outcomes of `AddInferRequest` and of admission
that sections 4.3, 4.4 and 6 name. -/
inductive ScheduleCode where
  | Success
  | RequestTooLong
  | QueueFull
deriving DecidableEq, Repr

/-- Modelled from the spec: the three queues of `BatchState` (section 3;
state/batch_state.h is not among the translated files), with the requests that
left the system and the status they left with. -/
structure BatchState where
  waiting : List InferRequest
  running : List InferRequest
  swapped : List InferRequest
  finished : List (InferRequest × ScheduleCode)
deriving DecidableEq, Repr

/-- Modelled from the spec: occupancy of the block allocator (section 3), the
free blocks per tier. -/
structure BlockAllocator where
  free_fast : Nat
  free_slow : Nat
deriving DecidableEq, Repr

/-- Modelled from the spec: the pluggable `ScheduleStrategy` (its sources are
not among the translated files).  `sustain` stands for steps 1 to 3 of `Step`
(sustain the running batch, preempt, resume swapped work), whose tie-breaks the
specification leaves to the policy; `initial_blocks` is the number of blocks a
request needs at admission. -/
structure ScheduleStrategy where
  sustain : BatchSchedulerConfig → BatchState → BlockAllocator → BatchState × BlockAllocator
  initial_blocks : InferRequest → Nat

/-- The members of `BatchScheduler` (batch_scheduler.h 43-51); the allocator is
the block manager the strategy consults. -/
structure BatchScheduler where
  batch_scheduler_config_ : BatchSchedulerConfig
  batch_state_ : BatchState
  allocator_ : BlockAllocator
  schedule_strategy_ : ScheduleStrategy

/-- Modelled from the spec: `CheckRequestExceedLength` (declared in
batch_scheduler.h 40-41, defined outside the translated files): true if the
request's input length exceeds the max input length. -/
def BatchScheduler.CheckRequestExceedLength (self : BatchScheduler) (req : InferRequest) : Bool :=
  decide (self.batch_scheduler_config_.max_input_len < req.input_tokens.length)

/-- Modelled from the spec: `CheckWaitingQueueFull` (declared in
batch_scheduler.h 37-38, defined outside the translated files): true if the
waiting queue is already at its configured capacity bound.  The bound of
section 4.4 is on the queue as it stands, so `num` does not enter. -/
def BatchScheduler.CheckWaitingQueueFull (self : BatchScheduler) (_num : Nat) : Bool :=
  decide (self.batch_scheduler_config_.max_waiting_queue_len ≤ self.batch_state_.waiting.length)

/-- Modelled from the spec: `BatchScheduler::AddInferRequest` (declared in
batch_scheduler.h 27-28, defined outside the translated files), section 4.4:
every request of the group is checked for its length first, then the waiting
queue for its capacity, then the whole group is appended to `waiting`. -/
def BatchScheduler.AddInferRequest (self : BatchScheduler)
    (infer_request_group : List InferRequest) : ScheduleCode × BatchScheduler :=
  if infer_request_group.any self.CheckRequestExceedLength then
    (ScheduleCode.RequestTooLong, self)
  else if self.CheckWaitingQueueFull infer_request_group.length then
    (ScheduleCode.QueueFull, self)
  else
    (ScheduleCode.Success,
      { self with
        batch_state_ :=
          { self.batch_state_ with
            waiting := self.batch_state_.waiting ++ infer_request_group } })

/-- A request leaving `waiting` during admission: the request as it stood in
the queue, and whether it was promoted to running (`true`) or rejected with
`RequestTooLong` (`false`). -/
structure Departure where
  req : InferRequest
  admitted : Bool
deriving DecidableEq, Repr

/-- Modelled from the spec: step 4 of `ScheduleStrategy.Step` (section 4.3),
run over the waiting queue from its front.  While the batch has not reached
`max_batch_size` and the fast tier has a free block, the front request is
popped: it is rejected with `RequestTooLong` if its input is longer than the
max input length, otherwise its initial blocks are allocated and it is
promoted to running.  When the allocator lacks the blocks (`OutOfMemory`) the
request stays at the front and admission ends for this step, as the strict
FIFO order of the base policy requires. -/
def admission (cfg : BatchSchedulerConfig) (initial_blocks : InferRequest → Nat) :
    List InferRequest → BatchState → BlockAllocator →
      BatchState × BlockAllocator × List Departure
  | [], st, al => ({ st with waiting := [] }, al, [])
  | r :: rest, st, al =>
    if st.running.length < cfg.max_batch_size ∧ 0 < al.free_fast then
      if cfg.max_input_len < r.input_tokens.length then
        let res := admission cfg initial_blocks rest
          { st with finished := st.finished ++ [(r, ScheduleCode.RequestTooLong)] } al
        (res.1, res.2.1, ⟨r, false⟩ :: res.2.2)
      else if initial_blocks r ≤ al.free_fast then
        let res := admission cfg initial_blocks rest
          { st with running := st.running ++ [{ r with blocks := initial_blocks r }] }
          { al with free_fast := al.free_fast - initial_blocks r }
        (res.1, res.2.1, ⟨r, true⟩ :: res.2.2)
      else ({ st with waiting := r :: rest }, al, [])
    else ({ st with waiting := r :: rest }, al, [])

/-- Modelled from the spec: `ScheduleStrategy.Step` (section 4.3): steps 1 to 3
by the policy, then admission; the requests that left `waiting` are reported
next to the new state. -/
def ScheduleStrategy.Step (strategy : ScheduleStrategy) (cfg : BatchSchedulerConfig)
    (st : BatchState) (al : BlockAllocator) : BatchState × BlockAllocator × List Departure :=
  let kept := strategy.sustain cfg st al
  admission cfg strategy.initial_blocks kept.1.waiting kept.1 kept.2

/-- Modelled from the spec: `BatchScheduler::Schedule` (declared in
batch_scheduler.h 24-25, defined outside the translated files), section 4.4:
delegates to the strategy and returns the running snapshot as the batch. -/
def BatchScheduler.Schedule (self : BatchScheduler) :
    List InferRequest × BatchScheduler × List Departure :=
  let res := self.schedule_strategy_.Step self.batch_scheduler_config_ self.batch_state_
    self.allocator_
  (res.1.running, { self with batch_state_ := res.1, allocator_ := res.2.1 }, res.2.2)

/-- A call made on the scheduler. -/
inductive Call where
  | AddInferRequest (infer_request_group : List InferRequest)
  | Schedule

/-- The scheduler together with what an observer has seen of it: the requests
accepted by `AddInferRequest` in order, the requests that left `waiting` in
order, each with the number of the `Schedule` call in which it left, the batch
each `Schedule` call returned, with the number of the call, and the number of
`Schedule` calls made. -/
structure History where
  scheduler : BatchScheduler
  enqueued : List InferRequest
  departures : List (Nat × Departure)
  batches : List (Nat × List InferRequest)
  calls : Nat

/-- One call and its record. -/
def History.step (h : History) : Call → History
  | Call.AddInferRequest group =>
    let res := h.scheduler.AddInferRequest group
    { h with
      scheduler := res.2
      enqueued := if res.1 = ScheduleCode.Success then h.enqueued ++ group else h.enqueued }
  | Call.Schedule =>
    let res := h.scheduler.Schedule
    { h with
      scheduler := res.2.1
      departures := h.departures ++ res.2.2.map (fun d => (h.calls + 1, d))
      batches := h.batches ++ [(h.calls + 1, res.1)]
      calls := h.calls + 1 }

/-- A sequence of calls, from the left. -/
def History.run (h : History) (calls : List Call) : History :=
  calls.foldl History.step h

/-- A freshly constructed scheduler: empty queues, all blocks free. -/
def BatchScheduler.ctor (cfg : BatchSchedulerConfig) (fast_blocks slow_blocks : Nat)
    (strategy : ScheduleStrategy) : BatchScheduler :=
  { batch_scheduler_config_ := cfg
    batch_state_ := { waiting := [], running := [], swapped := [], finished := [] }
    allocator_ := { free_fast := fast_blocks, free_slow := slow_blocks }
    schedule_strategy_ := strategy }

/-- The record of a fresh scheduler. -/
def History.start (s : BatchScheduler) : History :=
  { scheduler := s, enqueued := [], departures := [], batches := [], calls := 0 }

/-- The identities of the requests of a queue or batch. -/
def reqIds (l : List InferRequest) : List Nat := l.map (fun r => r.req_id)

/-- The request with identity `req_id` is in the batch that `Schedule` call
number `k` returned. -/
def History.inBatch (h : History) (req_id k : Nat) : Prop :=
  ∃ b, (k, b) ∈ h.batches ∧ req_id ∈ reqIds b

/-- The record agrees with the scheduler: the departures followed by the
waiting queue are the enqueued requests; the call numbers of the departures
never decrease and are numbers of calls made; a request that left `waiting`
as admitted is in the batch its call returned; every request that is running
or swapped, or was in a returned batch, left `waiting` as admitted, in that
call or an earlier one. -/
def History.consistent (h : History) : Prop :=
  h.departures.map (fun d => d.2.req) ++ h.scheduler.batch_state_.waiting = h.enqueued ∧
  h.departures.Pairwise (fun a b => a.1 ≤ b.1) ∧
  (∀ d ∈ h.departures, d.1 ≤ h.calls) ∧
  (∀ kb ∈ h.batches, kb.1 ≤ h.calls) ∧
  (∀ d ∈ h.departures, d.2.admitted = true → h.inBatch d.2.req.req_id d.1) ∧
  (∀ r ∈ h.scheduler.batch_state_.running ++ h.scheduler.batch_state_.swapped,
    ∃ d ∈ h.departures, d.2.admitted = true ∧ d.2.req.req_id = r.req_id) ∧
  (∀ kb ∈ h.batches, ∀ r ∈ kb.2,
    ∃ d ∈ h.departures, d.2.admitted = true ∧ d.2.req.req_id = r.req_id ∧ d.1 ≤ kb.1)

/-- A policy whose steps 1 to 3 find nothing to do, with a fixed block need per
request. -/
def idleStrategy (blocks_per_request : Nat) : ScheduleStrategy :=
  { sustain := fun _ st al => (st, al)
    initial_blocks := fun _ => blocks_per_request }

/-! ## Concrete samplers and batches -/

/-- A kernel that always succeeds and writes token `100 + i` to slot `i`. -/
def slotKernel : TopkSampling :=
  { Forward := fun _ _ _ _ dev => ({}, { dev with output_tokens := fun i => 100 + i }) }

/-- A kernel whose `Forward` fails, after writing the output buffer. -/
def failingKernel : TopkSampling :=
  { Forward := fun _ _ _ _ dev =>
      (⟨RetCode.RET_OTHER 7, "forward failed"⟩, { dev with output_tokens := fun i => 100 + i }) }

/-- A configuration with room for two requests. -/
def smallConfig : BatchSchedulerConfig :=
  { max_batch_size := 2, max_vocab_size := 32000, max_waiting_queue_len := 2, max_input_len := 4 }

/-- A sampler for `smallConfig`, as its constructor leaves it. -/
def smallSampler (rank : Int) (kernel : TopkSampling) : Sampler :=
  Sampler.ctor smallConfig rank 4096 48 (fun _ _ _ => kernel)

/-- A default-constructed parameter block: null pointers and zeros. -/
def zeroParameter : SamplingDevideParameter :=
  { device_topKs := 0, device_output_tokens_ptrs := 0, device_curandstates := 0,
    vocab_size_padded := 0, max_topK := 0, bs := 0 }

/-- Device memory filled with zeros. -/
def zeroDevice : DeviceMem :=
  { offset := fun _ => 0, topKs := fun _ => 0, output_tokens := fun _ => 0 }

/-- A heap whose vector at address 1 holds one token; all others are empty. -/
def smallHeap : Heap := fun a => if a = 1 then [5] else []

/-- A request with beam width 1, temperature 0, top-p 0 and the given top-k,
logits pointer and output vector. -/
def topkRequest (topk : Int) (logits output_tokens : Nat) : SamplingRequest :=
  { model_config := ⟨32000⟩
    sampling_config := { beam_width := 1, topk := topk, topp := F32.zero, temperature := F32.zero }
    logits_buf := [logits]
    logits_offset := 0
    output_tokens := output_tokens }

/-- A request asking for beam width 2 and a non-zero temperature. -/
def beamRequest (logits output_tokens : Nat) : SamplingRequest :=
  { model_config := ⟨32000⟩
    sampling_config := { beam_width := 2, topk := 1, topp := F32.zero, temperature := F32.one }
    logits_buf := [logits]
    logits_offset := 0
    output_tokens := output_tokens }

/-- The outcome of a call, with a fallback for a call that faults. -/
def Outcome.ofCall (x : Except Fault Outcome) (fallback : Outcome) : Outcome :=
  match x with
  | Except.ok res => res
  | Except.error _ => fallback

/-- An outcome that changes nothing. -/
def Outcome.unchanged (self : Sampler) (dev : DeviceMem) (heap : Heap) : Outcome :=
  ⟨{}, self, dev, heap⟩

/-- Two requests with top-k 1 on one logits buffer, with distinct output vectors. -/
def acceptedBatch : List SamplingRequest := [topkRequest 1 4096 1, topkRequest 1 4096 2]

/-- A supported request followed by one with beam width 2. -/
def rejectedBatch : List SamplingRequest := [topkRequest 1 4096 1, beamRequest 4096 2]

/-- A request with a null logits pointer followed by one with a buffer. -/
def nullFirstBatch : List SamplingRequest := [topkRequest 1 0 1, topkRequest 1 4096 2]

/-- A request with beam width 1 and top-p 0 whose temperature is `1.0f`. -/
def temperatureRequest (logits output_tokens : Nat) : SamplingRequest :=
  { model_config := ⟨32000⟩
    sampling_config := { beam_width := 1, topk := 1, topp := F32.zero, temperature := F32.one }
    logits_buf := [logits]
    logits_offset := 0
    output_tokens := output_tokens }

/-- A request with beam width 1 and temperature 0 whose top-p is `0.5f`. -/
def toppRequest (logits output_tokens : Nat) : SamplingRequest :=
  { model_config := ⟨32000⟩
    sampling_config :=
      { beam_width := 1, topk := 1, topp := ⟨0x3F000000⟩, temperature := F32.zero }
    logits_buf := [logits]
    logits_offset := 0
    output_tokens := output_tokens }

/-- A supported request followed by one with a non-zero temperature. -/
def temperatureBatch : List SamplingRequest := [topkRequest 1 4096 1, temperatureRequest 4096 2]

/-- A supported request followed by one with top-p `0.5f`. -/
def toppBatch : List SamplingRequest := [topkRequest 1 4096 1, toppRequest 4096 2]

/-- A request with a buffer followed by a request with a null logits pointer. -/
def nullSecondBatch : List SamplingRequest := [topkRequest 1 4096 1, topkRequest 1 0 2]

/-- A request with top-k 1 followed by one with top-k 5. -/
def topkBatch : List SamplingRequest := [topkRequest 1 4096 1, topkRequest 5 4096 2]

/-- The locals a pass through the loop ends with, with a fallback for a fault. -/
def Flow.stateOr (f : Flow) (fallback : LoopState) : LoopState :=
  match f with
  | Flow.next st => st
  | Flow.ret _ st => st
  | Flow.fault _ => fallback

/-- The locals after the validation loop of a batch on the small sampler. -/
def validatedState (reqs : List SamplingRequest) : LoopState :=
  Flow.stateOr
    (validateLoop 0 (loopInit (smallSampler 0 slotKernel) zeroParameter reqs.length) reqs)
    (loopInit (smallSampler 0 slotKernel) zeroParameter reqs.length)

/-- The outcome of a call on the small sampler of the given rank and kernel. -/
def smallOutcome (rank : Int) (kernel : TopkSampling) (reqs : List SamplingRequest) : Outcome :=
  Outcome.ofCall (Sampling (smallSampler rank kernel) zeroParameter zeroDevice smallHeap reqs)
    (Outcome.unchanged (smallSampler rank kernel) zeroDevice smallHeap)

/-! ## A concrete scheduler -/

/-- The configuration of the scenario: batches of at most two requests. -/
def scenarioConfig : BatchSchedulerConfig :=
  { max_batch_size := 2, max_vocab_size := 32000, max_waiting_queue_len := 8, max_input_len := 16 }

/-- A request with three input tokens, no output and no cache block. -/
def scenarioRequest (req_id : Nat) : InferRequest :=
  { req_id := req_id, input_tokens := [1, 2, 3], output_tokens := [], blocks := 0 }

/-- A fresh scheduler with four fast-tier blocks and one block per request at
admission. -/
def scenarioScheduler : BatchScheduler :=
  BatchScheduler.ctor scenarioConfig 4 4 (idleStrategy 1)

/-- Requests 1, 2 and 3 are enqueued in that order, then `Schedule` is called. -/
def scenarioCalls : List Call :=
  [Call.AddInferRequest [scenarioRequest 1], Call.AddInferRequest [scenarioRequest 2],
    Call.AddInferRequest [scenarioRequest 3], Call.Schedule]

/-- A scheduler whose waiting queue holds two requests, its capacity in
`smallConfig`. -/
def fullScheduler : BatchScheduler :=
  { batch_scheduler_config_ := smallConfig
    batch_state_ :=
      { waiting := [scenarioRequest 1, scenarioRequest 2], running := [], swapped := [],
        finished := [] }
    allocator_ := { free_fast := 4, free_slow := 4 }
    schedule_strategy_ := idleStrategy 1 }

/-- A request with five input tokens, one more than `smallConfig` allows. -/
def longRequest (req_id : Nat) : InferRequest :=
  { req_id := req_id, input_tokens := [1, 2, 3, 4, 5], output_tokens := [], blocks := 0 }

/-! ## The order of the checks and the layout of the device buffer -/

/-- The checks on one request in the order logits buffer, beam width,
temperature, top-p, top-k: the status of the first check that fails, `none`
when all pass.  `device_logits` is the logits pointer the batch has settled on
so far (null when there is none yet), `logits` the pointer of the request. -/
def firstFailingCheck (device_logits logits : Nat) (c : SamplingConfig) : Option Status :=
  if ¬ (device_logits = logits ∨ device_logits = 0) then some statusDifferentLogits
  else if c.beam_width ≠ 1 then some statusBeamWidth
  else if F32.eq c.temperature F32.zero = false then some statusTemperature
  else if ¬ (F32.eq c.topp F32.zero = true ∨ F32.eq c.topp F32.one = true) then some statusTopp
  else if 1024 < c.topk then some statusTopk
  else none

/-- The requests of a batch examined in batch order, from index `i` on: the
index of the earliest request that fails a check, with the status of its
earliest failing check; `none` when every request passes every check. -/
def firstFailure (rank_ : Int) : Nat → Nat → List SamplingRequest → Option (Nat × Status)
  | _, _, [] => none
  | i, device_logits, r :: rest =>
    match firstFailingCheck device_logits (r.logits rank_) r.sampling_config with
    | some s => some (i, s)
    | none => firstFailure rank_ (i + 1) (r.logits rank_) rest

/-- The logits checks on a run of requests all pass: the pointer of each
request equals `device_logits` as the request before it left it, or
`device_logits` is still null; `device_logits` is the value the run starts
with. -/
def logitsCheckPasses (rank_ : Int) (device_logits : Nat) (reqs : List SamplingRequest) : Prop :=
  List.Chain (fun d l => d = l ∨ d = 0) device_logits (reqs.map (fun q => q.logits rank_))

/-- The byte size the constructor asks the block manager for (sampler.cpp
19-21), `uint32_t` and `int` being four bytes wide. -/
def deviceBufferBytes (sizeof_curandState_t sizeof_pointer max_batch_size : Nat) : Nat :=
  (4 * 2 + 4 + sizeof_curandState_t + sizeof_pointer) * max_batch_size

/-- The five sub-buffers the constructor carves out of the device buffer
(sampler.cpp 25-29), each with its start address and its length in bytes:
`max_batch_size` elements of the type its pointer has. -/
def Sampler.subBuffers (self : Sampler) (sizeof_curandState_t sizeof_pointer : Nat) :
    List (Nat × Nat) :=
  [(self.device_output_tokens_, 4 * self.batch_schedule_config_.max_batch_size),
    (self.device_offset_, 4 * self.batch_schedule_config_.max_batch_size),
    (self.device_topKs_, 4 * self.batch_schedule_config_.max_batch_size),
    (self.device_curandstates_,
      sizeof_curandState_t * self.batch_schedule_config_.max_batch_size),
    (self.device_output_tokens_ptrs_,
      sizeof_pointer * self.batch_schedule_config_.max_batch_size)]

/-- Two byte ranges, each a start address and a length, do not overlap. -/
def disjointRanges (a b : Nat × Nat) : Prop :=
  a.1 + a.2 ≤ b.1 ∨ b.1 + b.2 ≤ a.1

/-- A configuration with room for one request. -/
def oneConfig : BatchSchedulerConfig :=
  { max_batch_size := 1, max_vocab_size := 32000, max_waiting_queue_len := 2, max_input_len := 4 }

/-- A request with beam width 2, a non-zero temperature and a top-k over the
bound, on the given logits buffer. -/
def manyFaultsRequest (logits output_tokens : Nat) : SamplingRequest :=
  { model_config := ⟨32000⟩
    sampling_config := { beam_width := 2, topk := 2000, topp := F32.zero, temperature := F32.one }
    logits_buf := [logits]
    logits_offset := 0
    output_tokens := output_tokens }

/-- A supported request followed by a request with several unsupported
settings, on one logits buffer. -/
def orderBatch : List SamplingRequest :=
  [topkRequest 1 4096 1, manyFaultsRequest 4096 2]

/-! ## Sampler: the validation loop -/

theorem hostSet_ok_iff {α : Type} (v w : List α) (i : Nat) (x : α) :
    hostSet v i x = Except.ok w ↔ i < v.length ∧ w = v.set i x := by
  unfold hostSet
  split
  · simp_all [eq_comm]
  · simp_all

theorem hostSet_error_iff {α : Type} (v : List α) (i : Nat) (x : α) (f : Fault) :
    hostSet v i x = Except.error f ↔ v.length ≤ i ∧ f = Fault.host_range := by
  unfold hostSet
  split
  · simp; omega
  · simp; constructor
    · intro h; exact ⟨by omega, h.symm⟩
    · intro h; exact h.2.symm

/-- What falling through the loop body tells about the request and the locals. -/
theorem loopBody_next {rank_ : Int} {st st1 : LoopState} {r : SamplingRequest}
    (h : loopBody rank_ st r = Flow.next st1) :
    r.sampling_config.supported ∧ r.sampling_config.topk ≤ 1024 ∧
    st1.req_index = st.req_index + 1 ∧
    st1.use_arg_max = (st.use_arg_max && decide (r.sampling_config.topk = 1)) ∧
    st1.host_offset_.length = st.host_offset_.length ∧
    st1.host_topKs_.length = st.host_topKs_.length ∧
    st.req_index < st.host_offset_.length ∧ st.req_index < st.host_topKs_.length ∧
    r.logits_buf[rank_.toNat]? = some st1.device_logits ∧
    (st.device_logits = st1.device_logits ∨ st.device_logits = 0) ∧
    st1.sampling_devide_parameter.bs = st.sampling_devide_parameter.bs ∧
    st1.sampling_devide_parameter.device_topKs = st.sampling_devide_parameter.device_topKs ∧
    st1.sampling_devide_parameter.device_output_tokens_ptrs =
      st.sampling_devide_parameter.device_output_tokens_ptrs ∧
    st1.sampling_devide_parameter.device_curandstates =
      st.sampling_devide_parameter.device_curandstates := by
  unfold loopBody at h
  simp only at h
  repeat' split at h
  all_goals first
    | (cases h; done)
    | (cases h
       simp_all [SamplingConfig.supported, hostSet_ok_iff]
       try omega)

/-- Every status the loop body returns is an error: the logits error or an
invalid-argument error. -/
theorem loopBody_ret {rank_ : Int} {st st1 : LoopState} {r : SamplingRequest} {s : Status}
    (h : loopBody rank_ st r = Flow.ret s st1) :
    (s = statusDifferentLogits ∨ s.code = RetCode.RET_INVALID_ARGUMENT) ∧ s.OK = false ∧
    st1.host_offset_.length = st.host_offset_.length ∧
    st1.host_topKs_.length = st.host_topKs_.length := by
  unfold loopBody at h
  simp only at h
  repeat' split at h
  all_goals first
    | (cases h; done)
    | (cases h
       simp_all [hostSet_ok_iff, statusTopk, statusTopp, statusTemperature, statusBeamWidth,
         statusDifferentLogits, Status.OK])

/-- The loop body faults only on a request without a logits entry for the rank
or on a slot outside the host vectors. -/
theorem loopBody_fault {rank_ : Int} {st : LoopState} {r : SamplingRequest} {f : Fault}
    (h : loopBody rank_ st r = Flow.fault f) :
    (f = Fault.logits_buf_range ∧ r.logits_buf[rank_.toNat]? = none) ∨
    (f = Fault.host_range ∧
      (st.host_offset_.length ≤ st.req_index ∨ st.host_topKs_.length ≤ st.req_index)) := by
  unfold loopBody at h
  simp only at h
  repeat' split at h
  all_goals first
    | (cases h; done)
    | (cases h
       simp_all [hostSet_ok_iff, hostSet_error_iff])

/-- A loop that runs to its end has accepted every request. -/
theorem validateLoop_next {rank_ : Int} (reqs : List SamplingRequest) :
    ∀ {st st1 : LoopState}, validateLoop rank_ st reqs = Flow.next st1 →
    (∀ r ∈ reqs, r.sampling_config.supported ∧ r.sampling_config.topk ≤ 1024 ∧
      r.logits_buf[rank_.toNat]? ≠ none) ∧
    st1.req_index = st.req_index + reqs.length ∧
    st1.use_arg_max = (st.use_arg_max && reqs.all (fun r => decide (r.sampling_config.topk = 1))) ∧
    st1.host_offset_.length = st.host_offset_.length ∧
    st1.host_topKs_.length = st.host_topKs_.length ∧
    (st.req_index ≤ st.host_offset_.length →
      st.req_index + reqs.length ≤ st.host_offset_.length) ∧
    (st.req_index ≤ st.host_topKs_.length →
      st.req_index + reqs.length ≤ st.host_topKs_.length) ∧
    st1.sampling_devide_parameter.bs = st.sampling_devide_parameter.bs ∧
    st1.sampling_devide_parameter.device_topKs = st.sampling_devide_parameter.device_topKs ∧
    st1.sampling_devide_parameter.device_output_tokens_ptrs =
      st.sampling_devide_parameter.device_output_tokens_ptrs ∧
    st1.sampling_devide_parameter.device_curandstates =
      st.sampling_devide_parameter.device_curandstates := by
  induction reqs with
  | nil =>
    intro st st1 h
    simp only [validateLoop, Flow.next.injEq] at h
    subst h
    simp
  | cons r rest ih =>
    intro st st1 h
    simp only [validateLoop] at h
    cases hb : loopBody rank_ st r with
    | next st2 =>
      rw [hb] at h
      have hn := loopBody_next hb
      have hi := ih h
      obtain ⟨n1, n2, n3, n4, n5, n6, n7, n8, n9, _, n11, n12, n13, n14⟩ := hn
      obtain ⟨i1, i2, i3, i4, i5, i6, i7, i8, i9, i10, i11⟩ := hi
      refine ⟨?_, ?_, ?_, ?_, ?_, ?_, ?_, ?_, ?_, ?_, ?_⟩
      · intro q hq
        rcases List.mem_cons.mp hq with rfl | hq
        · exact ⟨n1, n2, by rw [n9]; simp⟩
        · exact i1 q hq
      · rw [i2, n3, List.length_cons]; omega
      · rw [i3, n4, List.all_cons, Bool.and_assoc]
      · rw [i4, n5]
      · rw [i5, n6]
      · intro _
        rw [List.length_cons]
        rw [n5, n3] at i6
        omega
      · intro _
        rw [List.length_cons]
        rw [n6, n3] at i7
        omega
      · rw [i8, n11]
      · rw [i9, n12]
      · rw [i10, n13]
      · rw [i11, n14]
    | ret s st2 => rw [hb] at h; cases h
    | fault f => rw [hb] at h; cases h

/-- Every status the loop returns is an error: the logits error or an
invalid-argument error; the host vectors keep their size. -/
theorem validateLoop_ret {rank_ : Int} (reqs : List SamplingRequest) :
    ∀ {st st1 : LoopState} {s : Status}, validateLoop rank_ st reqs = Flow.ret s st1 →
    (s = statusDifferentLogits ∨ s.code = RetCode.RET_INVALID_ARGUMENT) ∧ s.OK = false ∧
    st1.host_offset_.length = st.host_offset_.length ∧
    st1.host_topKs_.length = st.host_topKs_.length := by
  induction reqs with
  | nil => intro st st1 s h; simp [validateLoop] at h
  | cons r rest ih =>
    intro st st1 s h
    simp only [validateLoop] at h
    cases hb : loopBody rank_ st r with
    | next st2 =>
      rw [hb] at h
      have hn := loopBody_next hb
      have hi := ih h
      exact ⟨hi.1, hi.2.1, by rw [hi.2.2.1, hn.2.2.2.2.1], by rw [hi.2.2.2, hn.2.2.2.2.2.1]⟩
    | ret s2 st2 =>
      rw [hb] at h
      cases h
      exact loopBody_ret hb
    | fault f => rw [hb] at h; cases h

/-- The loop faults only on a request without a logits entry for the rank or
when the batch does not fit the host vectors. -/
theorem validateLoop_fault {rank_ : Int} (reqs : List SamplingRequest) :
    ∀ {st : LoopState} {f : Fault}, validateLoop rank_ st reqs = Flow.fault f →
    (f = Fault.logits_buf_range ∧ ∃ r ∈ reqs, r.logits_buf[rank_.toNat]? = none) ∨
    (f = Fault.host_range ∧
      (st.host_offset_.length < st.req_index + reqs.length ∨
        st.host_topKs_.length < st.req_index + reqs.length)) := by
  induction reqs with
  | nil => intro st f h; simp [validateLoop] at h
  | cons r rest ih =>
    intro st f h
    simp only [validateLoop] at h
    cases hb : loopBody rank_ st r with
    | next st2 =>
      rw [hb] at h
      have hn := loopBody_next hb
      rcases ih h with ⟨h1, q, hq, hq2⟩ | ⟨h1, h2⟩
      · exact Or.inl ⟨h1, q, List.mem_cons_of_mem _ hq, hq2⟩
      · refine Or.inr ⟨h1, ?_⟩
        rw [List.length_cons]
        rw [hn.2.2.2.2.1, hn.2.2.2.2.2.1, hn.2.2.1] at h2
        omega
    | ret s2 st2 => rw [hb] at h; cases h
    | fault f2 =>
      rw [hb] at h
      cases h
      rcases loopBody_fault hb with ⟨h1, h2⟩ | ⟨h1, h2⟩
      · exact Or.inl ⟨h1, r, List.mem_cons_self _ _, h2⟩
      · refine Or.inr ⟨h1, ?_⟩
        rw [List.length_cons]
        omega

/-! ## Sampler: copies and the push loop -/

theorem copyToDevice_error {α : Type} {dev : Nat → α} {host : List α} {count region : Nat}
    {f : Fault} (h : copyToDevice dev host count region = Except.error f) :
    host.length < count ∨ region < count := by
  unfold copyToDevice at h
  split at h
  · exact Or.inl (by assumption)
  · split at h
    · exact Or.inr (by assumption)
    · cases h

theorem copyToHost_error {α : Type} {host : List α} {dev : Nat → α} {count region : Nat}
    {f : Fault} (h : copyToHost host dev count region = Except.error f) :
    host.length < count ∨ region < count := by
  unfold copyToHost at h
  split at h
  · exact Or.inl (by assumption)
  · split at h
    · exact Or.inr (by assumption)
    · cases h

theorem copyToHost_ok {α : Type} {host out : List α} {dev : Nat → α} {count region : Nat}
    (h : copyToHost host dev count region = Except.ok out) :
    out.length = host.length ∧ count ≤ host.length ∧
      ∀ i, i < count → out[i]? = some (dev i) := by
  unfold copyToHost at h
  split at h
  · cases h
  · split at h
    · cases h
    · cases h
      refine ⟨?_, by omega, ?_⟩
      · simp only [List.length_append, List.length_map, List.length_range, List.length_drop]
        omega
      · intro i hi
        rw [List.getElem?_append_left (by simp [hi])]
        simp [List.getElem?_map, List.getElem?_range hi]

theorem copyTopKs_error {self : Sampler} {st : LoopState} {dev : DeviceMem} {f : Fault}
    (h : copyTopKs self st dev = Except.error f) :
    st.host_topKs_.length < st.sampling_devide_parameter.bs ∨
      self.batch_schedule_config_.max_batch_size < st.sampling_devide_parameter.bs := by
  unfold copyTopKs at h
  split at h
  · split at h
    · rename_i f2 hc
      exact copyToDevice_error hc
    · cases h
  · cases h

/-- The push loop faults only when the batch does not fit the host vector. -/
theorem pushLoop_error (out : List Nat) (reqs : List SamplingRequest) :
    ∀ {i : Nat} {heap : Heap} {f : Fault}, pushLoop out i reqs heap = Except.error f →
      out.length < i + reqs.length := by
  induction reqs with
  | nil => intro i heap f h; simp [pushLoop] at h
  | cons r rest ih =>
    intro i heap f h
    simp only [pushLoop] at h
    cases ho : out[i]? with
    | none =>
      rw [List.getElem?_eq_none_iff] at ho
      rw [List.length_cons]
      omega
    | some tok =>
      rw [ho] at h
      have := ih h
      rw [List.length_cons]
      omega

/-- The push loop on vectors that do not alias: request `j` of the batch gets
the token of slot `i + j` at the end of its vector, no other vector changes. -/
theorem pushLoop_ok (out : List Nat) (reqs : List SamplingRequest) :
    ∀ {i : Nat} {heap heap1 : Heap}, pushLoop out i reqs heap = Except.ok heap1 →
      (reqs.map (fun r => r.output_tokens)).Nodup →
      (∀ j (hj : j < reqs.length), ∃ tok, out[i + j]? = some tok ∧
        heap1 (reqs[j].output_tokens) = heap (reqs[j].output_tokens) ++ [u32ToInt tok]) ∧
      (∀ a, a ∉ reqs.map (fun r => r.output_tokens) → heap1 a = heap a) := by
  induction reqs with
  | nil =>
    intro i heap heap1 h _
    simp only [pushLoop, Except.ok.injEq] at h
    subst h
    simp
  | cons r rest ih =>
    intro i heap heap1 h hnd
    simp only [pushLoop] at h
    rw [List.map_cons, List.nodup_cons] at hnd
    cases ho : out[i]? with
    | none => rw [ho] at h; cases h
    | some tok =>
      rw [ho] at h
      obtain ⟨ih1, ih2⟩ := ih h hnd.2
      constructor
      · intro j hj
        cases j with
        | zero =>
          refine ⟨tok, by simpa using ho, ?_⟩
          simp only [List.getElem_cons_zero]
          rw [ih2 _ hnd.1, Function.update_same]
        | succ k =>
          have hk : k < rest.length := by simpa using hj
          obtain ⟨t, ht1, ht2⟩ := ih1 k hk
          refine ⟨t, by rw [← ht1]; congr 1; omega, ?_⟩
          simp only [List.getElem_cons_succ]
          rw [ht2, Function.update_noteq]
          intro heq
          apply hnd.1
          rw [← heq]
          exact List.mem_map.mpr ⟨rest[k], List.getElem_mem _, rfl⟩
      · intro a ha
        rw [List.map_cons, List.mem_cons, not_or] at ha
        rw [ih2 a ha.2, Function.update_noteq ha.1]

/-! ## Sampler: the whole call -/

/-- The two ways a call on rank 0 returns: with the status of the validation
loop, or after the kernel has run. -/
theorem Sampling_ok_cases {self : Sampler} {dflt : SamplingDevideParameter} {dev : DeviceMem}
    {heap : Heap} {reqs : List SamplingRequest} {res : Outcome} (h0 : self.rank_ = 0)
    (h : Sampling self dflt dev heap reqs = Except.ok res) :
    (∃ s st, validateLoop self.rank_ (loopInit self dflt reqs.length) reqs = Flow.ret s st ∧
      res.status = s ∧ res.heap = heap ∧ res.device = dev ∧
      res.sampler.host_offset_ = st.host_offset_ ∧ res.sampler.host_topKs_ = st.host_topKs_ ∧
      res.sampler.host_output_tokens_ = self.host_output_tokens_ ∧
      res.sampler.batch_schedule_config_ = self.batch_schedule_config_) ∨
    (∃ st dev1, validateLoop self.rank_ (loopInit self dflt reqs.length) reqs = Flow.next st ∧
      res.device = (self.topk_sampling_.Forward st.device_logits self.device_offset_
        self.device_output_tokens_ (kernelParameter self st) dev1).2 ∧
      res.sampler.host_offset_ = st.host_offset_ ∧ res.sampler.host_topKs_ = st.host_topKs_ ∧
      res.sampler.batch_schedule_config_ = self.batch_schedule_config_ ∧
      (((self.topk_sampling_.Forward st.device_logits self.device_offset_
          self.device_output_tokens_ (kernelParameter self st) dev1).1.OK = false ∧
        res.status = (self.topk_sampling_.Forward st.device_logits self.device_offset_
          self.device_output_tokens_ (kernelParameter self st) dev1).1 ∧
        res.heap = heap ∧ res.sampler.host_output_tokens_ = self.host_output_tokens_) ∨
       ((self.topk_sampling_.Forward st.device_logits self.device_offset_
          self.device_output_tokens_ (kernelParameter self st) dev1).1.OK = true ∧
        res.status = {} ∧
        copyToHost self.host_output_tokens_ res.device.output_tokens
          st.sampling_devide_parameter.bs self.batch_schedule_config_.max_batch_size =
            Except.ok res.sampler.host_output_tokens_ ∧
        pushLoop res.sampler.host_output_tokens_ 0 reqs heap = Except.ok res.heap))) := by
  unfold Sampling at h
  rw [if_pos h0] at h
  cases hv : validateLoop self.rank_ (loopInit self dflt reqs.length) reqs with
  | fault f => rw [hv] at h; cases h
  | ret s st =>
    rw [hv] at h
    cases h
    exact Or.inl ⟨s, st, rfl, rfl, rfl, rfl, rfl, rfl, rfl, rfl⟩
  | next st =>
    rw [hv] at h
    simp only at h
    split at h
    · cases h
    · split at h
      · cases h
      · rename_i off _ _ dev1 _
        refine Or.inr ⟨st, dev1, rfl, ?_⟩
        split at h
        · rename_i hok
          split at h
          · cases h
          · rename_i out hout
            split at h
            · cases h
            · rename_i heap1 hpush
              cases h
              exact ⟨rfl, rfl, rfl, rfl, Or.inr ⟨hok, rfl, hout, hpush⟩⟩
        · rename_i hok
          cases h
          exact ⟨rfl, rfl, rfl, rfl, Or.inl ⟨by simpa using hok, rfl, rfl, rfl⟩⟩

/-- A call on a sampler whose host vectors have `m` slots faults only on a
request without a logits entry for the rank, or on a batch of more than `m`
requests. -/
theorem Sampling_fault {self : Sampler} {dflt : SamplingDevideParameter} {dev : DeviceMem}
    {heap : Heap} {reqs : List SamplingRequest} {m : Nat} {f : Fault} (hs : self.sized m)
    (h : Sampling self dflt dev heap reqs = Except.error f) :
    (f = Fault.logits_buf_range ∧ ∃ r ∈ reqs, r.logits_buf[self.rank_.toNat]? = none) ∨
      m < reqs.length := by
  obtain ⟨s1, s2, s3, s4⟩ := hs
  unfold Sampling at h
  split at h
  · cases hv : validateLoop self.rank_ (loopInit self dflt reqs.length) reqs with
    | fault f2 =>
      rw [hv] at h
      cases h
      rcases validateLoop_fault reqs hv with ⟨h1, h2⟩ | ⟨_, h2⟩
      · exact Or.inl ⟨h1, h2⟩
      · simp only [loopInit] at h2
        exact Or.inr (by omega)
    | ret s st => rw [hv] at h; cases h
    | next st =>
      rw [hv] at h
      have hn := validateLoop_next reqs hv
      obtain ⟨_, _, _, n4, n5, _, _, n8, _⟩ := hn
      simp only [loopInit] at n4 n5 n8
      simp only at h
      split at h
      · rename_i f2 hc
        rcases copyToDevice_error hc with hc | hc <;> exact Or.inr (by omega)
      · split at h
        · rename_i f2 hc
          rcases copyTopKs_error hc with hc | hc <;> exact Or.inr (by omega)
        · split at h
          · split at h
            · rename_i f2 hc
              rcases copyToHost_error hc with hc | hc <;> exact Or.inr (by omega)
            · rename_i out hout
              split at h
              · rename_i f2 hc
                have := pushLoop_error out reqs hc
                have := (copyToHost_ok hout).1
                exact Or.inr (by omega)
              · cases h
          · cases h
  · cases h

/-- A call on a sampler whose host vectors have `m` slots returns, when the
batch has at most `m` requests and each carries a logits entry for the rank. -/
theorem Sampling_returns {self : Sampler} (dflt : SamplingDevideParameter) (dev : DeviceMem)
    (heap : Heap) {reqs : List SamplingRequest} {m : Nat} (hs : self.sized m)
    (hn : reqs.length ≤ m) (hl : ∀ r ∈ reqs, r.logits_buf[self.rank_.toNat]? ≠ none) :
    ∃ res, Sampling self dflt dev heap reqs = Except.ok res := by
  cases h : Sampling self dflt dev heap reqs with
  | ok res => exact ⟨res, rfl⟩
  | error f =>
    rcases Sampling_fault hs h with ⟨_, r, hr, hr2⟩ | h2
    · exact absurd hr2 (hl r hr)
    · omega

/-! ## Sampler: the claims -/

/-- C3: on rank 0, when the call returns success for a batch whose output
vectors do not alias, the vector of request `i` is afterwards its old contents
followed by one token, the one the kernel left in slot `i` of the output
buffer (converted from `uint32_t` to `int`); no other vector changes. -/
theorem Sampling_appends_kernel_token (self : Sampler) (dflt : SamplingDevideParameter)
    (dev : DeviceMem) (heap : Heap) (reqs : List SamplingRequest) (res : Outcome)
    (h0 : self.rank_ = 0)
    (hdistinct : (reqs.map (fun r => r.output_tokens)).Nodup)
    (hres : Sampling self dflt dev heap reqs = Except.ok res) (hok : res.status.OK = true) :
    (∃ st dev1, validateLoop self.rank_ (loopInit self dflt reqs.length) reqs = Flow.next st ∧
      res.device = (self.topk_sampling_.Forward st.device_logits self.device_offset_
        self.device_output_tokens_ (kernelParameter self st) dev1).2) ∧
    (∀ i (hi : i < reqs.length),
      res.heap (reqs[i].output_tokens) =
        heap (reqs[i].output_tokens) ++ [u32ToInt (res.device.output_tokens i)]) ∧
    (∀ a, a ∉ reqs.map (fun r => r.output_tokens) → res.heap a = heap a) := by
  rcases Sampling_ok_cases h0 hres with ⟨s, st, hv, hs, _⟩ | ⟨st, dev1, hv, hd, _, _, _, hk⟩
  · have := (validateLoop_ret reqs hv).2.1
    rw [← hs, hok] at this
    cases this
  · rcases hk with ⟨k1, k2, _⟩ | ⟨_, _, hcopy, hpush⟩
    · rw [k2, k1] at hok; cases hok
    · have hbs : st.sampling_devide_parameter.bs = reqs.length := by
        have := (validateLoop_next reqs hv).2.2.2.2.2.2.2.1
        simpa [loopInit] using this
      rw [hbs] at hcopy
      obtain ⟨_, _, hslot⟩ := copyToHost_ok hcopy
      obtain ⟨p1, p2⟩ := pushLoop_ok _ reqs hpush hdistinct
      refine ⟨⟨st, dev1, hv, hd⟩, ?_, p2⟩
      intro i hi
      obtain ⟨tok, ht1, ht2⟩ := p1 i hi
      rw [Nat.zero_add, hslot i hi] at ht1
      cases ht1
      exact ht2

/-- C4: a call that returns a status other than OK (logits mismatch,
unsupported configuration, top-k too large, failing kernel) leaves every
output-token vector as it was. -/
theorem Sampling_rejection_keeps_tokens (self : Sampler) (dflt : SamplingDevideParameter)
    (dev : DeviceMem) (heap : Heap) (reqs : List SamplingRequest) (res : Outcome)
    (hres : Sampling self dflt dev heap reqs = Except.ok res) (hbad : res.status.OK = false) :
    res.heap = heap := by
  by_cases h0 : self.rank_ = 0
  · rcases Sampling_ok_cases h0 hres with ⟨s, st, _, _, hh, _⟩ | ⟨st, dev1, _, _, _, _, _, hk⟩
    · exact hh
    · rcases hk with ⟨_, _, hh, _⟩ | ⟨_, k2, _⟩
      · exact hh
      · rw [k2] at hbad; cases hbad
  · unfold Sampling at hres
    rw [if_neg h0] at hres
    cases hres
    rfl

/-- C6: a sampler whose rank is not 0 answers every batch with `Status()` and
changes neither the output-token vectors, nor its own members, nor the device
buffers. -/
theorem Sampling_other_rank (self : Sampler) (dflt : SamplingDevideParameter)
    (dev : DeviceMem) (heap : Heap) (reqs : List SamplingRequest) (h : self.rank_ ≠ 0) :
    Sampling self dflt dev heap reqs = Except.ok (Outcome.unchanged self dev heap) ∧
    (Outcome.unchanged self dev heap).status.OK = true ∧
    (Outcome.unchanged self dev heap).heap = heap := by
  unfold Sampling
  rw [if_neg h]
  exact ⟨rfl, rfl, rfl⟩

/-- C7: on rank 0, a request with a supported configuration whose logits
pointer passes the logits check, at a slot inside the host vectors, falls
through the loop body exactly when `topk ≤ 1024`; a larger top-k returns
`RET_INVALID_ARGUMENT` with the message "topk > 1024.".  There is no lower
bound: zero and negative values are accepted. -/
theorem loopBody_topk_bound (rank_ : Int) (st : LoopState) (r : SamplingRequest) (logits : Nat)
    (h0 : rank_ = 0) (hsup : r.sampling_config.supported)
    (hlog : r.logits_buf[rank_.toNat]? = some logits)
    (hchk : st.device_logits = logits ∨ st.device_logits = 0)
    (hoff : st.req_index < st.host_offset_.length)
    (htk : st.req_index < st.host_topKs_.length) :
    ((∃ st1, loopBody rank_ st r = Flow.next st1) ↔ r.sampling_config.topk ≤ 1024) ∧
    (1024 < r.sampling_config.topk → ∃ st1, loopBody rank_ st r = Flow.ret statusTopk st1) ∧
    (r.sampling_config.topk ≤ 0 → ∃ st1, loopBody rank_ st r = Flow.next st1) := by
  subst h0
  obtain ⟨c1, c2, c3⟩ := hsup
  have hacc : r.sampling_config.topk ≤ 1024 → ∃ st1, loopBody 0 st r = Flow.next st1 := by
    intro hle
    have hng : ¬ r.sampling_config.topk > 1024 := by omega
    unfold loopBody
    simp only [hlog, hchk, hostSet, hoff, htk, c1, c2, c3, hng, if_true, if_false]
    exact ⟨_, rfl⟩
  have hrej : 1024 < r.sampling_config.topk →
      ∃ st1, loopBody 0 st r = Flow.ret statusTopk st1 := by
    intro hgt
    have hg : r.sampling_config.topk > 1024 := hgt
    unfold loopBody
    simp only [hlog, hchk, hostSet, hoff, c1, c2, c3, hg, if_true]
    exact ⟨_, rfl⟩
  refine ⟨⟨fun ⟨st1, h⟩ => (loopBody_next h).2.1, hacc⟩, hrej, fun h => hacc (by omega)⟩

/-- C8: for a batch that passes validation on rank 0, `use_arg_max` is still
true after the loop exactly when every request has `topk == 1`; then the
parameter block handed to the kernel keeps the top-k array, the output-token
pointer array and the random states of the default block and `host_topKs_` is
not copied, while one request with another top-k puts the sampler's three
device pointers into the block. -/
theorem arg_max_iff_all_topk_one (self : Sampler) (dflt : SamplingDevideParameter)
    (dev : DeviceMem) (reqs : List SamplingRequest) (st : LoopState) (h0 : self.rank_ = 0)
    (hv : validateLoop self.rank_ (loopInit self dflt reqs.length) reqs = Flow.next st) :
    (st.use_arg_max = true ↔ ∀ r ∈ reqs, r.sampling_config.topk = 1) ∧
    ((∀ r ∈ reqs, r.sampling_config.topk = 1) →
      (kernelParameter self st).device_topKs = dflt.device_topKs ∧
      (kernelParameter self st).device_output_tokens_ptrs = dflt.device_output_tokens_ptrs ∧
      (kernelParameter self st).device_curandstates = dflt.device_curandstates ∧
      copyTopKs self st dev = Except.ok dev) ∧
    ((∃ r ∈ reqs, r.sampling_config.topk ≠ 1) →
      (kernelParameter self st).device_topKs = self.device_topKs_ ∧
      (kernelParameter self st).device_output_tokens_ptrs = self.device_output_tokens_ptrs_ ∧
      (kernelParameter self st).device_curandstates = self.device_curandstates_) := by
  rw [h0] at hv
  obtain ⟨_, _, n3, _, _, _, _, _, n9, n10, n11⟩ := validateLoop_next reqs hv
  simp only [loopInit, Bool.true_and] at n3 n9 n10 n11
  have hiff : st.use_arg_max = true ↔ ∀ r ∈ reqs, r.sampling_config.topk = 1 := by
    rw [n3, List.all_eq_true]
    simp
  refine ⟨hiff, ?_, ?_⟩
  · intro hall
    have hu := hiff.mpr hall
    unfold kernelParameter copyTopKs
    simp [hu, n9, n10, n11]
  · intro hex
    have hu : st.use_arg_max = false := by
      cases hq : st.use_arg_max with
      | false => rfl
      | true =>
        obtain ⟨r, hr, hne⟩ := hex
        exact absurd (hiff.mp hq r hr) hne
    unfold kernelParameter
    simp [hu]

/-- The constructor sizes the three host vectors to `max_batch_size`. -/
theorem ctor_sized (cfg : BatchSchedulerConfig) (rank : Int) (device_buffer sz : Nat)
    (mkTopk : Nat → Nat → Nat → TopkSampling) :
    (Sampler.ctor cfg rank device_buffer sz mkTopk).sized cfg.max_batch_size := by
  simp [Sampler.ctor, Sampler.sized]

/-- A call keeps the size of the host vectors. -/
theorem Sampling_sized {self : Sampler} {dflt : SamplingDevideParameter} {dev : DeviceMem}
    {heap : Heap} {reqs : List SamplingRequest} {res : Outcome} {m : Nat} (hs : self.sized m)
    (hres : Sampling self dflt dev heap reqs = Except.ok res) : res.sampler.sized m := by
  obtain ⟨s1, s2, s3, s4⟩ := hs
  by_cases h0 : self.rank_ = 0
  · rcases Sampling_ok_cases h0 hres with ⟨s, st, hv, _, _, _, e1, e2, e3, e4⟩ |
      ⟨st, dev1, hv, _, e1, e2, e4, hk⟩
    · obtain ⟨_, _, v3, v4⟩ := validateLoop_ret reqs hv
      simp only [loopInit] at v3 v4
      exact ⟨by rw [e1, v3, s1], by rw [e2, v4, s2], by rw [e3, s3], by rw [e4, s4]⟩
    · obtain ⟨_, _, _, v3, v4, _⟩ := validateLoop_next reqs hv
      simp only [loopInit] at v3 v4
      refine ⟨by rw [e1, v3, s1], by rw [e2, v4, s2], ?_, by rw [e4, s4]⟩
      rcases hk with ⟨_, _, _, e3⟩ | ⟨_, _, hcopy, _⟩
      · rw [e3, s3]
      · rw [(copyToHost_ok hcopy).1, s3]
  · unfold Sampling at hres
    rw [if_neg h0] at hres
    cases hres
    exact ⟨s1, s2, s3, s4⟩

/-- C9: the constructor gives `host_offset_`, `host_topKs_` and
`host_output_tokens_` the length `max_batch_size`; on a sampler whose host
vectors have `m` slots a batch of at most `m` requests never makes `Sampling`
reach outside a host vector or a device sub-buffer, and the call keeps the
vectors at `m` slots. -/
theorem Sampling_host_index_in_range (self : Sampler) (dflt : SamplingDevideParameter)
    (dev : DeviceMem) (heap : Heap) (reqs : List SamplingRequest) (m : Nat)
    (hs : self.sized m) (hn : reqs.length ≤ m) :
    Sampling self dflt dev heap reqs ≠ Except.error Fault.host_range ∧
    Sampling self dflt dev heap reqs ≠ Except.error Fault.device_range ∧
    (∀ res, Sampling self dflt dev heap reqs = Except.ok res → res.sampler.sized m) ∧
    (∀ cfg rank device_buffer sz mkTopk,
      (Sampler.ctor cfg rank device_buffer sz mkTopk).sized cfg.max_batch_size) := by
  refine ⟨?_, ?_, fun res hres => Sampling_sized hs hres, ctor_sized⟩
  · intro h
    rcases Sampling_fault hs h with ⟨h1, _⟩ | h1
    · cases h1
    · omega
  · intro h
    rcases Sampling_fault hs h with ⟨h1, _⟩ | h1
    · cases h1
    · omega

/-- Once `device_logits` is set to a buffer, a loop that runs to its end has
seen that buffer in every request. -/
theorem validateLoop_logits_set {rank_ : Int} (reqs : List SamplingRequest) :
    ∀ {st st1 : LoopState}, validateLoop rank_ st reqs = Flow.next st1 →
      st.device_logits ≠ 0 → ∀ r ∈ reqs, r.logits rank_ = st.device_logits := by
  induction reqs with
  | nil => intro st st1 _ _ r hr; cases hr
  | cons q rest ih =>
    intro st st1 h hne r hr
    simp only [validateLoop] at h
    cases hb : loopBody rank_ st q with
    | next st2 =>
      rw [hb] at h
      obtain ⟨_, _, _, _, _, _, _, _, n9, n10, _⟩ := loopBody_next hb
      have heq : st2.device_logits = st.device_logits := by
        rcases n10 with n10 | n10
        · exact n10.symm
        · exact absurd n10 hne
      rcases List.mem_cons.mp hr with rfl | hr
      · simp [SamplingRequest.logits, n9, heq]
      · rw [← heq]
        exact ih h (by rw [heq]; exact hne) r hr
    | ret s st2 => rw [hb] at h; cases h
    | fault f => rw [hb] at h; cases h

/-- While `device_logits` is still null, a loop that runs to its end has seen
null pointers and then one buffer. -/
theorem validateLoop_logits_unset {rank_ : Int} (reqs : List SamplingRequest) :
    ∀ {st st1 : LoopState}, validateLoop rank_ st reqs = Flow.next st1 →
      st.device_logits = 0 →
      ∃ k p, k ≤ reqs.length ∧
        reqs.map (fun r => r.logits rank_) =
          List.replicate k 0 ++ List.replicate (reqs.length - k) p := by
  induction reqs with
  | nil => intro st st1 _ _; exact ⟨0, 0, by simp, by simp⟩
  | cons q rest ih =>
    intro st st1 h hz
    simp only [validateLoop] at h
    cases hb : loopBody rank_ st q with
    | next st2 =>
      rw [hb] at h
      obtain ⟨_, _, _, _, _, _, _, _, n9, _, _⟩ := loopBody_next hb
      have hq : q.logits rank_ = st2.device_logits := by simp [SamplingRequest.logits, n9]
      by_cases hnull : st2.device_logits = 0
      · obtain ⟨k, p, hk, hmap⟩ := ih h hnull
        refine ⟨k + 1, p, by simp [hk], ?_⟩
        rw [List.map_cons, hq, hnull, hmap, List.replicate_succ, List.length_cons]
        simp
      · refine ⟨0, st2.device_logits, by simp, ?_⟩
        have hall := validateLoop_logits_set rest h hnull
        rw [List.map_cons, hq, List.replicate_zero, List.nil_append, Nat.sub_zero,
          List.length_cons, List.replicate_succ]
        congr 1
        apply List.eq_replicate_iff.mpr
        refine ⟨by simp, ?_⟩
        intro b hb2
        obtain ⟨r, hr, rfl⟩ := List.mem_map.mp hb2
        exact hall r hr
    | ret s st2 => rw [hb] at h; cases h
    | fault f => rw [hb] at h; cases h

/-- C10: the batch of a request with a null logits pointer followed by a
request with a logits buffer passes the whole validation loop on rank 0, though
the two requests carry different logits pointers: the check of sampler.cpp
65-70, which rejects every other pair of different pointers, does not reject
this one. -/
theorem validation_accepts_different_logits :
    (smallSampler 0 slotKernel).rank_ = 0 ∧
    (∃ st, validateLoop (smallSampler 0 slotKernel).rank_
      (loopInit (smallSampler 0 slotKernel) zeroParameter nullFirstBatch.length)
      nullFirstBatch = Flow.next st) ∧
    ¬ (∀ a ∈ nullFirstBatch, ∀ b ∈ nullFirstBatch,
      a.logits_buf[(smallSampler 0 slotKernel).rank_.toNat]? =
        b.logits_buf[(smallSampler 0 slotKernel).rank_.toNat]?) := by
  refine ⟨rfl, ⟨_, rfl⟩, ?_⟩
  intro h
  have := h (topkRequest 1 0 1) (by simp [nullFirstBatch]) (topkRequest 1 4096 2)
    (by simp [nullFirstBatch])
  revert this
  decide

/-- The same two requests in the other order are rejected with the logits
status, and so is a pair of two different buffers. -/
theorem validation_rejects_null_second :
    (∃ st, validateLoop (smallSampler 0 slotKernel).rank_
      (loopInit (smallSampler 0 slotKernel) zeroParameter nullSecondBatch.length)
      nullSecondBatch = Flow.ret statusDifferentLogits st) ∧
    (∃ st, validateLoop (smallSampler 0 slotKernel).rank_
      (loopInit (smallSampler 0 slotKernel) zeroParameter 2)
      [topkRequest 1 4096 1, topkRequest 1 8192 2] = Flow.ret statusDifferentLogits st) ∧
    (smallOutcome 0 slotKernel nullFirstBatch).status.OK = true ∧
    (smallOutcome 0 slotKernel nullFirstBatch).heap 1 = [5, 100] :=
  ⟨⟨_, rfl⟩, ⟨_, rfl⟩, rfl, by decide⟩

/-- What the logits check lets through: when the validation loop on rank 0
runs to its end, the logits pointers of the batch for this rank are a
(possibly empty) run of null pointers followed by copies of one pointer; so
all requests with a non-null logits pointer carry the same pointer. -/
theorem validation_logits_shape (self : Sampler) (dflt : SamplingDevideParameter)
    (reqs : List SamplingRequest) (st : LoopState) (h0 : self.rank_ = 0)
    (hv : validateLoop self.rank_ (loopInit self dflt reqs.length) reqs = Flow.next st) :
    (∃ k p, k ≤ reqs.length ∧
      reqs.map (fun r => r.logits self.rank_) =
        List.replicate k 0 ++ List.replicate (reqs.length - k) p) ∧
    (∀ a ∈ reqs, ∀ b ∈ reqs, a.logits self.rank_ ≠ 0 → b.logits self.rank_ ≠ 0 →
      a.logits self.rank_ = b.logits self.rank_) ∧
    (∀ a ∈ reqs, a.logits_buf[self.rank_.toNat]? = some (a.logits self.rank_)) := by
  rw [h0] at hv ⊢
  obtain ⟨k, p, hk, hmap⟩ := validateLoop_logits_unset reqs hv rfl
  have hmem : ∀ a ∈ reqs, a.logits 0 = 0 ∨ a.logits 0 = p := by
    intro a ha
    have : a.logits 0 ∈ reqs.map (fun r => r.logits 0) := List.mem_map.mpr ⟨a, ha, rfl⟩
    rw [hmap, List.mem_append] at this
    rcases this with h1 | h1
    · exact Or.inl (List.eq_of_mem_replicate h1)
    · exact Or.inr (List.eq_of_mem_replicate h1)
  refine ⟨⟨k, p, hk, hmap⟩, ?_, ?_⟩
  · intro a ha b hb na nb
    rcases hmem a ha with h1 | h1
    · exact absurd h1 na
    · rcases hmem b hb with h2 | h2
      · exact absurd h2 nb
      · rw [h1, h2]
  · intro a ha
    have hsome := ((validateLoop_next reqs hv).1 a ha).2.2
    cases hq : a.logits_buf[(0 : Int).toNat]? with
    | none => exact absurd hq hsome
    | some v =>
      have hq2 : a.logits_buf[0]? = some v := by simpa using hq
      simp [SamplingRequest.logits, hq2]

/-! ## Sampler: the claims at concrete batches -/

/-- C3 at a batch of two requests: the vector at address 1 goes from `[5]` to
`[5, 100]`, the empty vector at address 2 to `[101]`. -/
theorem Sampling_appends_kernel_token_witness :
    (smallSampler 0 slotKernel).rank_ = 0 ∧
    (acceptedBatch.map (fun r => r.output_tokens)).Nodup ∧
    Sampling (smallSampler 0 slotKernel) zeroParameter zeroDevice smallHeap acceptedBatch =
      Except.ok (smallOutcome 0 slotKernel acceptedBatch) ∧
    (smallOutcome 0 slotKernel acceptedBatch).status.OK = true ∧
    (∀ i (hi : i < acceptedBatch.length),
      (smallOutcome 0 slotKernel acceptedBatch).heap (acceptedBatch[i].output_tokens) =
        smallHeap (acceptedBatch[i].output_tokens) ++
          [u32ToInt ((smallOutcome 0 slotKernel acceptedBatch).device.output_tokens i)]) ∧
    (smallOutcome 0 slotKernel acceptedBatch).heap 1 = [5, 100] ∧
    (smallOutcome 0 slotKernel acceptedBatch).heap 2 = [101] :=
  ⟨rfl, by decide, rfl, rfl,
    (Sampling_appends_kernel_token (smallSampler 0 slotKernel) zeroParameter zeroDevice smallHeap
      acceptedBatch (smallOutcome 0 slotKernel acceptedBatch) rfl (by decide) rfl rfl).2.1,
    by decide, by decide⟩

/-- C4 at a batch whose kernel call fails: the call returns the kernel's
status and both vectors are as before. -/
theorem Sampling_rejection_keeps_tokens_witness :
    Sampling (smallSampler 0 failingKernel) zeroParameter zeroDevice smallHeap acceptedBatch =
      Except.ok (smallOutcome 0 failingKernel acceptedBatch) ∧
    (smallOutcome 0 failingKernel acceptedBatch).status.OK = false ∧
    (smallOutcome 0 failingKernel acceptedBatch).heap = smallHeap :=
  ⟨rfl, rfl,
    Sampling_rejection_keeps_tokens (smallSampler 0 failingKernel) zeroParameter zeroDevice
      smallHeap acceptedBatch (smallOutcome 0 failingKernel acceptedBatch) rfl rfl⟩

/-- C6 at rank 1 and a batch with an unsupported configuration. -/
theorem Sampling_other_rank_witness :
    (smallSampler 1 slotKernel).rank_ ≠ 0 ∧
    Sampling (smallSampler 1 slotKernel) zeroParameter zeroDevice smallHeap rejectedBatch =
      Except.ok (Outcome.unchanged (smallSampler 1 slotKernel) zeroDevice smallHeap) :=
  ⟨by decide,
    (Sampling_other_rank (smallSampler 1 slotKernel) zeroParameter zeroDevice smallHeap
      rejectedBatch (by decide)).1⟩

/-- C7 at the first slot of the small sampler: top-k 1024 and top-k -3 are
accepted, top-k 1025 is rejected with the top-k status. -/
theorem loopBody_topk_bound_witness :
    (∃ st1, loopBody 0 (loopInit (smallSampler 0 slotKernel) zeroParameter 1)
      (topkRequest 1024 4096 1) = Flow.next st1) ∧
    (∃ st1, loopBody 0 (loopInit (smallSampler 0 slotKernel) zeroParameter 1)
      (topkRequest (-3) 4096 1) = Flow.next st1) ∧
    (∃ st1, loopBody 0 (loopInit (smallSampler 0 slotKernel) zeroParameter 1)
      (topkRequest 1025 4096 1) = Flow.ret statusTopk st1) ∧
    ¬ (∃ st1, loopBody 0 (loopInit (smallSampler 0 slotKernel) zeroParameter 1)
      (topkRequest 1025 4096 1) = Flow.next st1) :=
  ⟨(loopBody_topk_bound 0 (loopInit (smallSampler 0 slotKernel) zeroParameter 1)
      (topkRequest 1024 4096 1) 4096 rfl (by decide) rfl (Or.inr rfl) (by decide)
      (by decide)).1.mpr (by decide),
    (loopBody_topk_bound 0 (loopInit (smallSampler 0 slotKernel) zeroParameter 1)
      (topkRequest (-3) 4096 1) 4096 rfl (by decide) rfl (Or.inr rfl) (by decide)
      (by decide)).2.2 (by decide),
    (loopBody_topk_bound 0 (loopInit (smallSampler 0 slotKernel) zeroParameter 1)
      (topkRequest 1025 4096 1) 4096 rfl (by decide) rfl (Or.inr rfl) (by decide)
      (by decide)).2.1 (by decide),
    fun h => absurd ((loopBody_topk_bound 0 (loopInit (smallSampler 0 slotKernel) zeroParameter 1)
      (topkRequest 1025 4096 1) 4096 rfl (by decide) rfl (Or.inr rfl) (by decide)
      (by decide)).1.mp h) (by decide)⟩

/-- C8 at a batch with top-k 1 and top-k 5: `use_arg_max` is false and the
kernel gets the sampler's top-k array. -/
theorem arg_max_iff_all_topk_one_witness :
    (smallSampler 0 slotKernel).rank_ = 0 ∧
    validateLoop (smallSampler 0 slotKernel).rank_
      (loopInit (smallSampler 0 slotKernel) zeroParameter topkBatch.length) topkBatch =
        Flow.next (validatedState topkBatch) ∧
    ((validatedState topkBatch).use_arg_max = true ↔
      ∀ r ∈ topkBatch, r.sampling_config.topk = 1) ∧
    (validatedState topkBatch).use_arg_max = false ∧
    (kernelParameter (smallSampler 0 slotKernel) (validatedState topkBatch)).device_topKs =
      (smallSampler 0 slotKernel).device_topKs_ :=
  ⟨rfl, rfl,
    (arg_max_iff_all_topk_one (smallSampler 0 slotKernel) zeroParameter zeroDevice topkBatch
      (validatedState topkBatch) rfl rfl).1,
    rfl,
    ((arg_max_iff_all_topk_one (smallSampler 0 slotKernel) zeroParameter zeroDevice topkBatch
      (validatedState topkBatch) rfl rfl).2.2
        ⟨topkRequest 5 4096 2, by simp [topkBatch], by decide⟩).1⟩

/-- C9 at the small sampler, as constructed, and a batch of two requests. -/
theorem Sampling_host_index_in_range_witness :
    (smallSampler 0 slotKernel).sized 2 ∧ acceptedBatch.length ≤ 2 ∧
    Sampling (smallSampler 0 slotKernel) zeroParameter zeroDevice smallHeap acceptedBatch ≠
      Except.error Fault.host_range ∧
    (smallOutcome 0 slotKernel acceptedBatch).sampler.sized 2 :=
  ⟨ctor_sized smallConfig 0 4096 48 _, by decide,
    (Sampling_host_index_in_range (smallSampler 0 slotKernel) zeroParameter zeroDevice smallHeap
      acceptedBatch 2 (ctor_sized smallConfig 0 4096 48 _) (by decide)).1,
    (Sampling_host_index_in_range (smallSampler 0 slotKernel) zeroParameter zeroDevice smallHeap
      acceptedBatch 2 (ctor_sized smallConfig 0 4096 48 _) (by decide)).2.2.1 _ rfl⟩

/-! ## BatchScheduler -/

/-- C2: `AddInferRequest` answers `RequestTooLong` and changes nothing when a
request of the group is longer than the max input length; otherwise it answers
`QueueFull` and changes nothing when the waiting queue is at its capacity;
otherwise it answers success and appends the group, in its order, to the
waiting queue.  The length check comes first: a group with a too long request
is answered `RequestTooLong` also when the queue is full. -/
theorem AddInferRequest_outcomes (self : BatchScheduler) (group : List InferRequest) :
    ((∃ r ∈ group, self.batch_scheduler_config_.max_input_len < r.input_tokens.length) →
      self.AddInferRequest group = (ScheduleCode.RequestTooLong, self)) ∧
    ((∀ r ∈ group, r.input_tokens.length ≤ self.batch_scheduler_config_.max_input_len) →
      self.batch_scheduler_config_.max_waiting_queue_len ≤ self.batch_state_.waiting.length →
      self.AddInferRequest group = (ScheduleCode.QueueFull, self)) ∧
    ((∀ r ∈ group, r.input_tokens.length ≤ self.batch_scheduler_config_.max_input_len) →
      self.batch_state_.waiting.length < self.batch_scheduler_config_.max_waiting_queue_len →
      (self.AddInferRequest group).1 = ScheduleCode.Success ∧
      (self.AddInferRequest group).2.batch_state_.waiting =
        self.batch_state_.waiting ++ group ∧
      (self.AddInferRequest group).2.batch_state_.running = self.batch_state_.running ∧
      (self.AddInferRequest group).2.batch_state_.swapped = self.batch_state_.swapped ∧
      (self.AddInferRequest group).2.allocator_ = self.allocator_) := by
  refine ⟨?_, ?_, ?_⟩
  · rintro ⟨r, hr, hlen⟩
    have hany : group.any self.CheckRequestExceedLength = true := by
      rw [List.any_eq_true]
      exact ⟨r, hr, by simp [BatchScheduler.CheckRequestExceedLength, hlen]⟩
    simp [BatchScheduler.AddInferRequest, hany]
  · intro hall hfull
    have hany : group.any self.CheckRequestExceedLength = false := by
      rw [List.any_eq_false]
      intro r hr
      simpa [BatchScheduler.CheckRequestExceedLength] using hall r hr
    simp [BatchScheduler.AddInferRequest, hany, BatchScheduler.CheckWaitingQueueFull, hfull]
  · intro hall hroom
    have hany : group.any self.CheckRequestExceedLength = false := by
      rw [List.any_eq_false]
      intro r hr
      simpa [BatchScheduler.CheckRequestExceedLength] using hall r hr
    have hnf : ¬ self.batch_scheduler_config_.max_waiting_queue_len ≤
        self.batch_state_.waiting.length := by omega
    simp [BatchScheduler.AddInferRequest, hany, BatchScheduler.CheckWaitingQueueFull, hnf]

/-- C2 at a full queue: a group with a too long request is answered
`RequestTooLong`, a group of short requests `QueueFull`, and on the fresh
scheduler of the scenario a group of two is appended. -/
theorem AddInferRequest_outcomes_witness :
    fullScheduler.AddInferRequest [scenarioRequest 3, longRequest 4] =
      (ScheduleCode.RequestTooLong, fullScheduler) ∧
    fullScheduler.AddInferRequest [scenarioRequest 3] = (ScheduleCode.QueueFull, fullScheduler) ∧
    (scenarioScheduler.AddInferRequest [scenarioRequest 1, scenarioRequest 2]).1 =
      ScheduleCode.Success ∧
    (scenarioScheduler.AddInferRequest [scenarioRequest 1, scenarioRequest 2]).2.batch_state_.waiting =
      scenarioScheduler.batch_state_.waiting ++ [scenarioRequest 1, scenarioRequest 2] :=
  ⟨(AddInferRequest_outcomes fullScheduler [scenarioRequest 3, longRequest 4]).1
      ⟨longRequest 4, by simp, by decide⟩,
    (AddInferRequest_outcomes fullScheduler [scenarioRequest 3]).2.1 (by decide) (by decide),
    ((AddInferRequest_outcomes scenarioScheduler [scenarioRequest 1, scenarioRequest 2]).2.2
      (by decide) (by decide)).1,
    ((AddInferRequest_outcomes scenarioScheduler [scenarioRequest 1, scenarioRequest 2]).2.2
      (by decide) (by decide)).2.1⟩

/-- The requests that leave `waiting` during admission are a front segment of
the queue, in queue order; the rest stays in `waiting`. -/
theorem admission_departures (cfg : BatchSchedulerConfig) (ib : InferRequest → Nat)
    (w : List InferRequest) :
    ∀ (st : BatchState) (al : BlockAllocator),
      (admission cfg ib w st al).2.2.map (fun d => d.req) ++ (admission cfg ib w st al).1.waiting
        = w := by
  induction w with
  | nil => intro st al; simp [admission]
  | cons r rest ih =>
    intro st al
    simp only [admission]
    split
    · split
      · simp [ih]
      · split
        · simp [ih]
        · simp
    · simp

/-- Admission never grows the running batch beyond `max_batch_size`. -/
theorem admission_running_le (cfg : BatchSchedulerConfig) (ib : InferRequest → Nat)
    (w : List InferRequest) :
    ∀ (st : BatchState) (al : BlockAllocator), st.running.length ≤ cfg.max_batch_size →
      (admission cfg ib w st al).1.running.length ≤ cfg.max_batch_size := by
  induction w with
  | nil => intro st al h; simpa [admission] using h
  | cons r rest ih =>
    intro st al h
    simp only [admission]
    split
    · rename_i hg
      split
      · exact ih _ _ (by simpa using h)
      · split
        · apply ih
          simp only [List.length_append, List.length_singleton]
          omega
        · simpa using h
    · simpa using h

/-- A step that admits a request ends with a batch of at most
`max_batch_size` requests. -/
theorem admission_bounded (cfg : BatchSchedulerConfig) (ib : InferRequest → Nat)
    (w : List InferRequest) :
    ∀ (st : BatchState) (al : BlockAllocator),
      (∃ d ∈ (admission cfg ib w st al).2.2, d.admitted = true) →
      (admission cfg ib w st al).1.running.length ≤ cfg.max_batch_size := by
  induction w with
  | nil => intro st al h; simp [admission] at h
  | cons r rest ih =>
    intro st al
    simp only [admission]
    split
    · rename_i hg
      split
      · intro h
        apply ih
        obtain ⟨d, hd, hadm⟩ := h
        rcases List.mem_cons.mp hd with rfl | hd
        · cases hadm
        · exact ⟨d, hd, hadm⟩
      · split
        · intro _
          apply admission_running_le
          simp only [List.length_append, List.length_singleton]
          omega
        · intro h; simp at h
    · intro h; simp at h

/-- Admission appends the admitted requests, each with its initial blocks, to
the running batch and leaves the swapped queue alone. -/
theorem admission_running (cfg : BatchSchedulerConfig) (ib : InferRequest → Nat)
    (w : List InferRequest) :
    ∀ (st : BatchState) (al : BlockAllocator),
      (admission cfg ib w st al).1.running =
        st.running ++ ((admission cfg ib w st al).2.2.filter (fun d => d.admitted)).map
          (fun d => { d.req with blocks := ib d.req }) ∧
      (admission cfg ib w st al).1.swapped = st.swapped := by
  induction w with
  | nil => intro st al; simp [admission]
  | cons r rest ih =>
    intro st al
    simp only [admission]
    split
    · split
      · obtain ⟨i1, i2⟩ := ih { st with finished := st.finished ++ [(r, ScheduleCode.RequestTooLong)] } al
        simp only [i1, i2]
        simp
      · split
        · obtain ⟨i1, i2⟩ := ih
            { st with running := st.running ++ [{ r with blocks := ib r }] }
            { al with free_fast := al.free_fast - ib r }
          simp only [i1, i2]
          simp
        · simp
    · simp

/-- A request in the batch after admission was in it before or left `waiting`
as admitted in this step; an admitted request is in the batch. -/
theorem admission_running_ids (cfg : BatchSchedulerConfig) (ib : InferRequest → Nat)
    (w : List InferRequest) (st : BatchState) (al : BlockAllocator) :
    (∀ r ∈ (admission cfg ib w st al).1.running,
      r ∈ st.running ∨
        ∃ d ∈ (admission cfg ib w st al).2.2, d.admitted = true ∧ d.req.req_id = r.req_id) ∧
    (∀ d ∈ (admission cfg ib w st al).2.2, d.admitted = true →
      d.req.req_id ∈ reqIds (admission cfg ib w st al).1.running) := by
  obtain ⟨h1, _⟩ := admission_running cfg ib w st al
  constructor
  · intro r hr
    rw [h1, List.mem_append] at hr
    rcases hr with hr | hr
    · exact Or.inl hr
    · obtain ⟨d, hd, rfl⟩ := List.mem_map.mp hr
      obtain ⟨hd1, hd2⟩ := List.mem_filter.mp hd
      exact Or.inr ⟨d, hd1, hd2, rfl⟩
  · intro d hd hadm
    rw [h1, reqIds, List.map_append, List.mem_append]
    refine Or.inr (List.mem_map.mpr ⟨{ d.req with blocks := ib d.req }, ?_, rfl⟩)
    exact List.mem_map.mpr ⟨d, List.mem_filter.mpr ⟨hd, hadm⟩, rfl⟩

/-- One call keeps the record in agreement with the scheduler, for a policy
whose steps 1 to 3 leave `waiting` alone and only move requests between the
running and the swapped queue (or drop them). -/
theorem History.step_consistent (strategy : ScheduleStrategy)
    (hkeep : ∀ cfg st al, (strategy.sustain cfg st al).1.waiting = st.waiting)
    (hmove : ∀ cfg st al,
      ∀ r ∈ (strategy.sustain cfg st al).1.running ++ (strategy.sustain cfg st al).1.swapped,
        r.req_id ∈ reqIds (st.running ++ st.swapped))
    (h : History) (c : Call) (hs : h.scheduler.schedule_strategy_ = strategy)
    (hc : h.consistent) :
    (h.step c).scheduler.schedule_strategy_ = strategy ∧ (h.step c).consistent := by
  subst hs
  simp only [History.consistent, History.inBatch] at hc ⊢
  obtain ⟨c1, c2, c3, c4, c5, c6, c7⟩ := hc
  cases c with
  | AddInferRequest group =>
    simp only [History.step, BatchScheduler.AddInferRequest]
    split
    · exact ⟨rfl, by simpa using c1, c2, c3, c4, c5, c6, c7⟩
    · split
      · exact ⟨rfl, by simpa using c1, c2, c3, c4, c5, c6, c7⟩
      · refine ⟨rfl, ?_, c2, c3, c4, c5, c6, c7⟩
        simp only [if_true]
        rw [← c1, List.append_assoc]
  | Schedule =>
    simp only [History.step, BatchScheduler.Schedule, ScheduleStrategy.Step]
    have hk := hkeep h.scheduler.batch_scheduler_config_ h.scheduler.batch_state_
      h.scheduler.allocator_
    have hm := hmove h.scheduler.batch_scheduler_config_ h.scheduler.batch_state_
      h.scheduler.allocator_
    generalize h.scheduler.schedule_strategy_.sustain h.scheduler.batch_scheduler_config_
      h.scheduler.batch_state_ h.scheduler.allocator_ = kept at hk hm ⊢
    have hd := admission_departures h.scheduler.batch_scheduler_config_
      h.scheduler.schedule_strategy_.initial_blocks kept.1.waiting kept.1 kept.2
    have hr := admission_running_ids h.scheduler.batch_scheduler_config_
      h.scheduler.schedule_strategy_.initial_blocks kept.1.waiting kept.1 kept.2
    have hsw := (admission_running h.scheduler.batch_scheduler_config_
      h.scheduler.schedule_strategy_.initial_blocks kept.1.waiting kept.1 kept.2).2
    generalize admission h.scheduler.batch_scheduler_config_
      h.scheduler.schedule_strategy_.initial_blocks kept.1.waiting kept.1 kept.2 = res
      at hd hr hsw ⊢
    obtain ⟨hr1, hr2⟩ := hr
    have hold : ∀ r ∈ kept.1.running ++ kept.1.swapped,
        ∃ d ∈ h.departures, d.2.admitted = true ∧ d.2.req.req_id = r.req_id := by
      intro r hrm
      have hid := hm r hrm
      obtain ⟨r0, hr0, hid0⟩ := List.mem_map.mp hid
      obtain ⟨d, hdm, hda, hdi⟩ := c6 r0 hr0
      exact ⟨d, hdm, hda, by rw [hdi, hid0]⟩
    have hnew : ∀ r ∈ res.1.running,
        ∃ d ∈ h.departures ++ res.2.2.map (fun d => (h.calls + 1, d)),
          d.2.admitted = true ∧ d.2.req.req_id = r.req_id ∧ d.1 ≤ h.calls + 1 := by
      intro r hrm
      rcases hr1 r hrm with hin | ⟨e, he, hea, hei⟩
      · obtain ⟨d, hdm, hda, hdi⟩ := hold r (List.mem_append_left _ hin)
        exact ⟨d, List.mem_append_left _ hdm, hda, hdi, Nat.le_succ_of_le (c3 d hdm)⟩
      · exact ⟨(h.calls + 1, e),
          List.mem_append_right _ (List.mem_map.mpr ⟨e, he, rfl⟩), hea, hei, Nat.le_refl _⟩
    refine ⟨trivial, ?_, ?_, ?_, ?_, ?_, ?_, ?_⟩
    · rw [List.map_append, List.map_map, List.append_assoc]
      have hcomp : ((fun d : Nat × Departure => d.2.req) ∘ fun d => (h.calls + 1, d)) =
          fun d : Departure => d.req := rfl
      rw [hcomp, hd, hk, c1]
    · rw [List.pairwise_append]
      refine ⟨c2, ?_, ?_⟩
      · rw [List.pairwise_map]
        exact List.pairwise_of_forall (fun _ _ => Nat.le_refl _)
      · intro a ha b hb
        obtain ⟨d, _, rfl⟩ := List.mem_map.mp hb
        exact Nat.le_succ_of_le (c3 a ha)
    · intro d hdm
      rcases List.mem_append.mp hdm with hdm | hdm
      · exact Nat.le_succ_of_le (c3 d hdm)
      · obtain ⟨e, _, rfl⟩ := List.mem_map.mp hdm
        exact Nat.le_refl _
    · intro kb hkb
      rcases List.mem_append.mp hkb with hkb | hkb
      · exact Nat.le_succ_of_le (c4 kb hkb)
      · rw [List.mem_singleton] at hkb
        subst hkb
        exact Nat.le_refl _
    · intro d hdm hadm
      rcases List.mem_append.mp hdm with hdm | hdm
      · obtain ⟨b, hb1, hb2⟩ := c5 d hdm hadm
        exact ⟨b, List.mem_append_left _ hb1, hb2⟩
      · obtain ⟨e, he, rfl⟩ := List.mem_map.mp hdm
        exact ⟨res.1.running, List.mem_append_right _ (List.mem_singleton.mpr rfl),
          hr2 e he hadm⟩
    · intro r hrm
      rcases List.mem_append.mp hrm with hrm | hrm
      · obtain ⟨d, hdm, hda, hdi, _⟩ := hnew r hrm
        exact ⟨d, hdm, hda, hdi⟩
      · rw [hsw] at hrm
        obtain ⟨d, hdm, hda, hdi⟩ := hold r (List.mem_append_right _ hrm)
        exact ⟨d, List.mem_append_left _ hdm, hda, hdi⟩
    · intro kb hkb r hrm
      rcases List.mem_append.mp hkb with hkb | hkb
      · obtain ⟨d, hdm, hda, hdi, hle⟩ := c7 kb hkb r hrm
        exact ⟨d, List.mem_append_left _ hdm, hda, hdi, hle⟩
      · rw [List.mem_singleton] at hkb
        subst hkb
        exact hnew r hrm

/-- A sequence of calls keeps the record in agreement with the scheduler. -/
theorem History.run_consistent (strategy : ScheduleStrategy)
    (hkeep : ∀ cfg st al, (strategy.sustain cfg st al).1.waiting = st.waiting)
    (hmove : ∀ cfg st al,
      ∀ r ∈ (strategy.sustain cfg st al).1.running ++ (strategy.sustain cfg st al).1.swapped,
        r.req_id ∈ reqIds (st.running ++ st.swapped))
    (calls : List Call) :
    ∀ (h : History), h.scheduler.schedule_strategy_ = strategy → h.consistent →
      (h.run calls).consistent := by
  induction calls with
  | nil => intro h _ hc; exact hc
  | cons c rest ih =>
    intro h hs hc
    obtain ⟨s1, s2⟩ := History.step_consistent strategy hkeep hmove h c hs hc
    exact ih (h.step c) s1 s2

/-- The record of a fresh scheduler agrees with it. -/
theorem History.start_consistent (cfg : BatchSchedulerConfig) (fast_blocks slow_blocks : Nat)
    (strategy : ScheduleStrategy) :
    (History.start (BatchScheduler.ctor cfg fast_blocks slow_blocks strategy)).consistent := by
  simp [History.consistent, History.start, BatchScheduler.ctor]

/-- With unique identities, the position of a request among the enqueued
requests is fixed by its identity. -/
theorem reqIds_index_unique {l : List InferRequest} (hids : (reqIds l).Nodup) {i j : Nat}
    {a b : InferRequest} (ha : l[i]? = some a) (hb : l[j]? = some b)
    (hid : a.req_id = b.req_id) : i = j := by
  have hi : i < (reqIds l).length := by
    rw [reqIds, List.length_map]
    exact (List.getElem?_eq_some_iff.mp ha).1
  apply List.getElem?_inj hi hids
  rw [reqIds, List.getElem?_map, List.getElem?_map, ha, hb]
  simp [hid]

/-- C5: for every sequence of `AddInferRequest` and `Schedule` calls on a fresh
scheduler, with requests of unique identity and any policy for steps 1 to 3
that leaves `waiting` alone and brings no new request into the running or
swapped queue: if request A was enqueued before request B and both have been
in a batch returned by `Schedule`, then A is in the batch of a call that is no
later than any call whose batch holds B.  A request is in the batch of the
call in which it is admitted and in no batch before; the requests leave
`waiting` in the order they were enqueued.  A `Schedule` call that admits a
request returns a batch of at most `max_batch_size` requests.  In the scenario
(max_batch_size 2, four fast blocks, one block per request, requests 1, 2, 3
enqueued in that order) the first `Schedule` returns requests 1 and 2 and
leaves request 3 waiting. -/
theorem Schedule_admission_fifo (cfg : BatchSchedulerConfig) (fast_blocks slow_blocks : Nat)
    (strategy : ScheduleStrategy) (calls : List Call) (h : History)
    (hrun : h =
      (History.start (BatchScheduler.ctor cfg fast_blocks slow_blocks strategy)).run calls)
    (hkeep : ∀ cfg st al, (strategy.sustain cfg st al).1.waiting = st.waiting)
    (hmove : ∀ cfg st al,
      ∀ r ∈ (strategy.sustain cfg st al).1.running ++ (strategy.sustain cfg st al).1.swapped,
        r.req_id ∈ reqIds (st.running ++ st.swapped))
    (hids : (reqIds h.enqueued).Nodup) :
    (∀ (i j : Nat) (A B : InferRequest) (ka kb : Nat), i < j →
      h.enqueued[i]? = some A → h.enqueued[j]? = some B →
      h.inBatch A.req_id ka → h.inBatch B.req_id kb →
      ∃ k, k ≤ kb ∧ h.inBatch A.req_id k) ∧
    (∀ d ∈ h.departures, d.2.admitted = true → h.inBatch d.2.req.req_id d.1) ∧
    (∀ kb ∈ h.batches, ∀ r ∈ kb.2,
      ∃ d ∈ h.departures, d.2.admitted = true ∧ d.2.req.req_id = r.req_id ∧ d.1 ≤ kb.1) ∧
    h.departures.map (fun d => d.2.req) ++ h.scheduler.batch_state_.waiting = h.enqueued ∧
    (∀ (i j : Nat) (a b : Nat × Departure), i < j →
      h.departures[i]? = some a → h.departures[j]? = some b →
      h.enqueued[i]? = some a.2.req ∧ h.enqueued[j]? = some b.2.req ∧ a.1 ≤ b.1) ∧
    (∀ s : BatchScheduler, (∃ d ∈ s.Schedule.2.2, d.admitted = true) →
      s.Schedule.1.length ≤ s.batch_scheduler_config_.max_batch_size) ∧
    (((History.start scenarioScheduler).run scenarioCalls).batches =
        [(1, [{ scenarioRequest 1 with blocks := 1 }, { scenarioRequest 2 with blocks := 1 }])] ∧
      ((History.start scenarioScheduler).run scenarioCalls).scheduler.batch_state_.waiting =
        [scenarioRequest 3]) := by
  have hcons := History.run_consistent strategy hkeep hmove calls
    (History.start (BatchScheduler.ctor cfg fast_blocks slow_blocks strategy)) rfl
    (History.start_consistent cfg fast_blocks slow_blocks strategy)
  rw [← hrun] at hcons
  obtain ⟨c1, c2, _, _, c5, _, c7⟩ := hcons
  have hlen : ∀ (k : Nat) (d : Nat × Departure),
      h.departures[k]? = some d → h.enqueued[k]? = some d.2.req := by
    intro k d hd
    rw [← c1]
    have hk : k < (h.departures.map (fun d => d.2.req)).length := by
      rw [List.length_map]
      exact (List.getElem?_eq_some_iff.mp hd).1
    rw [List.getElem?_append_left hk, List.getElem?_map, hd]
    rfl
  have hmono : ∀ (i j : Nat) (a b : Nat × Departure), i < j →
      h.departures[i]? = some a → h.departures[j]? = some b → a.1 ≤ b.1 := by
    intro i j a b hij ha hb
    obtain ⟨hi, rfl⟩ := List.getElem?_eq_some_iff.mp ha
    obtain ⟨hj, rfl⟩ := List.getElem?_eq_some_iff.mp hb
    exact List.pairwise_iff_getElem.mp c2 i j hi hj hij
  have hentry : ∀ (i : Nat) (A : InferRequest) (k : Nat), h.enqueued[i]? = some A →
      h.inBatch A.req_id k →
      ∃ d, h.departures[i]? = some d ∧ d.2.admitted = true ∧ d.2.req = A ∧ d.1 ≤ k := by
    intro i A k hA ⟨b, hb, hid⟩
    obtain ⟨r, hr, hrid⟩ := List.mem_map.mp hid
    obtain ⟨d, hd, hadm, hdid, hle⟩ := c7 (k, b) hb r hr
    obtain ⟨n, hn⟩ := List.mem_iff_getElem?.mp hd
    have hn2 := hlen n d hn
    have hni : n = i := reqIds_index_unique hids hn2 hA (by rw [hdid, hrid])
    subst hni
    rw [hA] at hn2
    exact ⟨d, hn, hadm, (Option.some.inj hn2).symm, hle⟩
  refine ⟨?_, c5, c7, c1, ?_, ?_, by decide, by decide⟩
  · intro i j A B ka kb hij hA hB hinA hinB
    obtain ⟨dA, hdA, hadmA, hreqA, _⟩ := hentry i A ka hA hinA
    obtain ⟨dB, hdB, _, _, hleB⟩ := hentry j B kb hB hinB
    have hle := hmono i j dA dB hij hdA hdB
    have hin := c5 dA (List.getElem?_mem hdA) hadmA
    rw [hreqA] at hin
    exact ⟨dA.1, Nat.le_trans hle hleB, hin⟩
  · intro i j a b hij ha hb
    exact ⟨hlen i a ha, hlen j b hb, hmono i j a b hij ha hb⟩
  · intro s hadm
    simp only [BatchScheduler.Schedule, ScheduleStrategy.Step] at hadm ⊢
    exact admission_bounded _ _ _ _ _ hadm

/-- C5 at the scenario: after the three enqueues the first `Schedule` returns
the batch of requests 1 and 2, each with one block, request 3 is waiting, and
request 1 is in a batch no later than request 2. -/
theorem Schedule_admission_fifo_witness :
    (reqIds ((History.start scenarioScheduler).run scenarioCalls).enqueued).Nodup ∧
    ((History.start scenarioScheduler).run scenarioCalls).enqueued =
      [scenarioRequest 1, scenarioRequest 2, scenarioRequest 3] ∧
    ((History.start scenarioScheduler).run scenarioCalls).departures =
      [(1, ⟨scenarioRequest 1, true⟩), (1, ⟨scenarioRequest 2, true⟩)] ∧
    ((History.start scenarioScheduler).run scenarioCalls).batches =
      [(1, [{ scenarioRequest 1 with blocks := 1 }, { scenarioRequest 2 with blocks := 1 }])] ∧
    ((History.start scenarioScheduler).run scenarioCalls).scheduler.batch_state_.waiting =
      [scenarioRequest 3] ∧
    (∃ k, k ≤ 1 ∧ ((History.start scenarioScheduler).run scenarioCalls).inBatch
      (scenarioRequest 1).req_id k) := by
  have hb : ((History.start scenarioScheduler).run scenarioCalls).batches =
      [(1, [{ scenarioRequest 1 with blocks := 1 }, { scenarioRequest 2 with blocks := 1 }])] := by
    decide
  have hin : ∀ n, n = 1 ∨ n = 2 →
      ((History.start scenarioScheduler).run scenarioCalls).inBatch (scenarioRequest n).req_id 1 := by
    intro n hn
    refine ⟨_, by rw [hb]; exact List.mem_singleton.mpr rfl, ?_⟩
    rcases hn with rfl | rfl <;> decide
  have key := Schedule_admission_fifo scenarioConfig 4 4 (idleStrategy 1) scenarioCalls
    ((History.start scenarioScheduler).run scenarioCalls) rfl (fun _ _ _ => rfl)
    (fun _ st _ r hr => List.mem_map.mpr ⟨r, hr, rfl⟩) (by decide)
  exact ⟨by decide, by decide, by decide, hb, by decide,
    key.1 0 1 (scenarioRequest 1) (scenarioRequest 2) 1 1 (by decide) rfl rfl
      (hin 1 (Or.inl rfl)) (hin 2 (Or.inr rfl))⟩

/-! ## Sampler: the order of the checks -/

/-- The status the loop body returns is that of the first failing check of
the request; the request counter stays at the request. -/
theorem loopBody_ret_check {rank_ : Int} {st st1 : LoopState} {r : SamplingRequest} {s : Status}
    (h : loopBody rank_ st r = Flow.ret s st1) :
    firstFailingCheck st.device_logits (r.logits rank_) r.sampling_config = some s ∧
      st1.req_index = st.req_index := by
  unfold loopBody at h
  simp only at h
  repeat' split at h
  all_goals first
    | (cases h; done)
    | (cases h
       simp_all [firstFailingCheck, SamplingRequest.logits, hostSet_ok_iff])

/-- A request the loop body falls through passes every check. -/
theorem loopBody_next_check {rank_ : Int} {st st1 : LoopState} {r : SamplingRequest}
    (h : loopBody rank_ st r = Flow.next st1) :
    firstFailingCheck st.device_logits (r.logits rank_) r.sampling_config = none ∧
      st1.device_logits = r.logits rank_ ∧ st1.req_index = st.req_index + 1 := by
  obtain ⟨⟨c1, c2, c3⟩, n2, n3, _, _, _, _, _, n9, n10, _⟩ := loopBody_next h
  have hl : r.logits rank_ = st1.device_logits := by simp [SamplingRequest.logits, n9]
  refine ⟨?_, hl.symm, n3⟩
  have hng : ¬ 1024 < r.sampling_config.topk := by omega
  rw [hl]
  unfold firstFailingCheck
  rw [if_neg (not_not.mpr n10), if_neg (not_not.mpr c1), if_neg (by simp [c2]), if_neg (not_not.mpr c3),
    if_neg hng]

/-- The loop and the checks in their order agree on the offending request and
on its status. -/
theorem validateLoop_first_failure {rank_ : Int} (reqs : List SamplingRequest) :
    ∀ {st : LoopState},
      (∀ s st1, validateLoop rank_ st reqs = Flow.ret s st1 →
        firstFailure rank_ st.req_index st.device_logits reqs = some (st1.req_index, s)) ∧
      (∀ st1, validateLoop rank_ st reqs = Flow.next st1 →
        firstFailure rank_ st.req_index st.device_logits reqs = none) := by
  induction reqs with
  | nil =>
    intro st
    exact ⟨fun s st1 h => by simp [validateLoop] at h, fun st1 _ => rfl⟩
  | cons r rest ih =>
    intro st
    cases hb : loopBody rank_ st r with
    | next st2 =>
      obtain ⟨k1, k2, k3⟩ := loopBody_next_check hb
      have hrec : firstFailure rank_ st.req_index st.device_logits (r :: rest) =
          firstFailure rank_ st2.req_index st2.device_logits rest := by
        simp only [firstFailure, k1, k2, k3]
      constructor
      · intro s st1 h
        simp only [validateLoop, hb] at h
        rw [hrec]
        exact ih.1 s st1 h
      · intro st1 h
        simp only [validateLoop, hb] at h
        rw [hrec]
        exact ih.2 st1 h
    | ret s2 st2 =>
      obtain ⟨k1, k2⟩ := loopBody_ret_check hb
      constructor
      · intro s st1 h
        simp only [validateLoop, hb] at h
        cases h
        simp only [firstFailure, k1, k2]
      · intro st1 h
        simp only [validateLoop, hb] at h
        cases h
    | fault f =>
      constructor
      · intro s st1 h
        simp only [validateLoop, hb] at h
        cases h
      · intro st1 h
        simp only [validateLoop, hb] at h
        cases h

/-- C11: on rank 0 the requests are examined in batch order and, within a
request, the checks run as logits buffer, beam width, temperature, top-p,
top-k.  When the validation loop returns a status, it is the status of the
earliest failing check of the earliest request that fails a check, and the
loop has stopped at that request; `Sampling` returns that status, and it does
return when the batch fits the sampler and every request carries a logits
entry.  A request that passes the logits check with a beam width other than 1
yields the beam-width status, whatever its temperature, top-p and top-k. -/
theorem Sampling_reports_first_failing_check (self : Sampler) (dflt : SamplingDevideParameter)
    (dev : DeviceMem) (heap : Heap) (reqs : List SamplingRequest) (h0 : self.rank_ = 0) :
    (∀ s st, validateLoop self.rank_ (loopInit self dflt reqs.length) reqs = Flow.ret s st →
      firstFailure self.rank_ 0 0 reqs = some (st.req_index, s)) ∧
    (∀ i s res, firstFailure self.rank_ 0 0 reqs = some (i, s) →
      Sampling self dflt dev heap reqs = Except.ok res → res.status = s) ∧
    (∀ i s m, firstFailure self.rank_ 0 0 reqs = some (i, s) → self.sized m → reqs.length ≤ m →
      (∀ r ∈ reqs, r.logits_buf[self.rank_.toNat]? ≠ none) →
      ∃ res, Sampling self dflt dev heap reqs = Except.ok res ∧ res.status = s) ∧
    (∀ (st : LoopState) (r : SamplingRequest) (logits : Nat),
      r.logits_buf[self.rank_.toNat]? = some logits →
      (st.device_logits = logits ∨ st.device_logits = 0) →
      st.req_index < st.host_offset_.length → r.sampling_config.beam_width ≠ 1 →
      ∃ st1, loopBody self.rank_ st r = Flow.ret statusBeamWidth st1) := by
  have hloop := @validateLoop_first_failure self.rank_ reqs (loopInit self dflt reqs.length)
  have hstatus : ∀ i s res, firstFailure self.rank_ 0 0 reqs = some (i, s) →
      Sampling self dflt dev heap reqs = Except.ok res → res.status = s := by
    intro i s res hf hres
    rcases Sampling_ok_cases h0 hres with ⟨s1, st, hv, hs, _⟩ | ⟨st, dev1, hv, _⟩
    · have h1 := hloop.1 s1 st hv
      simp only [loopInit] at h1
      rw [hf] at h1
      cases h1
      exact hs
    · have h1 := hloop.2 st hv
      simp only [loopInit] at h1
      rw [hf] at h1
      cases h1
  refine ⟨fun s st hv => hloop.1 s st hv, hstatus, ?_, ?_⟩
  · intro i s m hf hs hn hl
    obtain ⟨res, hres⟩ := Sampling_returns dflt dev heap hs hn hl
    exact ⟨res, hres, hstatus i s res hf hres⟩
  · intro st r logits hlog hchk hoff hbw
    unfold loopBody
    simp only [hlog, hchk, hostSet, hoff, hbw, if_true, if_false]
    exact ⟨_, rfl⟩

/-- C11 at a batch whose second request has beam width 2, a non-zero
temperature and a top-k over the bound: the status is the beam-width status of
request 1. -/
theorem Sampling_reports_first_failing_check_witness :
    (smallSampler 0 slotKernel).rank_ = 0 ∧
    firstFailure (smallSampler 0 slotKernel).rank_ 0 0 orderBatch = some (1, statusBeamWidth) ∧
    Sampling (smallSampler 0 slotKernel) zeroParameter zeroDevice smallHeap orderBatch =
      Except.ok (smallOutcome 0 slotKernel orderBatch) ∧
    (smallOutcome 0 slotKernel orderBatch).status = statusBeamWidth :=
  ⟨rfl, by decide, rfl,
    (Sampling_reports_first_failing_check (smallSampler 0 slotKernel) zeroParameter zeroDevice
      smallHeap orderBatch rfl).2.1 1 statusBeamWidth (smallOutcome 0 slotKernel orderBatch)
      (by decide) rfl⟩

/-! ## Sampler: the layout of the device buffer -/

/-- C12: the constructor places the five sub-buffers (output tokens, offsets,
top-k values, random states, output-token pointers) at the byte offsets 0, 4n,
8n, 12n and 12n + n * sizeof(curandState_t) of the device buffer, `n` being
`max_batch_size`; the sub-buffers do not overlap pairwise and the last one
ends at the allocated size. -/
theorem ctor_partitions_device_buffer (cfg : BatchSchedulerConfig) (rank : Int)
    (device_buffer sizeof_curandState_t sizeof_pointer : Nat)
    (mkTopk : Nat → Nat → Nat → TopkSampling) :
    (Sampler.ctor cfg rank device_buffer sizeof_curandState_t mkTopk).device_output_tokens_ =
      device_buffer + 0 ∧
    (Sampler.ctor cfg rank device_buffer sizeof_curandState_t mkTopk).device_offset_ =
      device_buffer + 4 * cfg.max_batch_size ∧
    (Sampler.ctor cfg rank device_buffer sizeof_curandState_t mkTopk).device_topKs_ =
      device_buffer + 8 * cfg.max_batch_size ∧
    (Sampler.ctor cfg rank device_buffer sizeof_curandState_t mkTopk).device_curandstates_ =
      device_buffer + 12 * cfg.max_batch_size ∧
    (Sampler.ctor cfg rank device_buffer sizeof_curandState_t mkTopk).device_output_tokens_ptrs_ =
      device_buffer + (12 * cfg.max_batch_size + cfg.max_batch_size * sizeof_curandState_t) ∧
    ((Sampler.ctor cfg rank device_buffer sizeof_curandState_t mkTopk).subBuffers
      sizeof_curandState_t sizeof_pointer).Pairwise disjointRanges ∧
    (Sampler.ctor cfg rank device_buffer sizeof_curandState_t mkTopk).device_output_tokens_ptrs_ +
        sizeof_pointer * cfg.max_batch_size =
      device_buffer + deviceBufferBytes sizeof_curandState_t sizeof_pointer cfg.max_batch_size := by
  have hmul : cfg.max_batch_size * sizeof_curandState_t =
      sizeof_curandState_t * cfg.max_batch_size := Nat.mul_comm _ _
  have hbytes : deviceBufferBytes sizeof_curandState_t sizeof_pointer cfg.max_batch_size =
      12 * cfg.max_batch_size + sizeof_curandState_t * cfg.max_batch_size +
        sizeof_pointer * cfg.max_batch_size := by
    unfold deviceBufferBytes
    rw [Nat.add_mul, Nat.add_mul]
  refine ⟨rfl, ?_, ?_, ?_, ?_, ?_, ?_⟩
  · simp only [Sampler.ctor]
  · simp only [Sampler.ctor]; omega
  · simp only [Sampler.ctor]; omega
  · simp only [Sampler.ctor]; omega
  · simp only [Sampler.subBuffers, Sampler.ctor, disjointRanges, List.pairwise_cons,
      List.mem_cons, List.mem_singleton, List.not_mem_nil, forall_eq_or_imp, forall_eq,
      List.Pairwise.nil, and_true, false_imp_iff, implies_true]
    omega
  · rw [hbytes]
    simp only [Sampler.ctor]
    omega

/-- C13, counterexample: with `max_batch_size` 1, the device buffer at the
8-byte aligned address 4096 and random states of 48 bytes, the random-state
sub-buffer starts at 4108 and the pointer sub-buffer at 4156; neither address
is a multiple of 8. -/
theorem ctor_misaligned_for_one_request :
    1 ≤ oneConfig.max_batch_size ∧ 4096 % 8 = 0 ∧ 48 % 8 = 0 ∧
    (Sampler.ctor oneConfig 0 4096 48 (fun _ _ _ => slotKernel)).device_curandstates_ = 4108 ∧
    (Sampler.ctor oneConfig 0 4096 48 (fun _ _ _ => slotKernel)).device_output_tokens_ptrs_ =
      4156 ∧
    ¬ ((Sampler.ctor oneConfig 0 4096 48 (fun _ _ _ => slotKernel)).device_curandstates_ % 8 = 0 ∧
      (Sampler.ctor oneConfig 0 4096 48 (fun _ _ _ => slotKernel)).device_output_tokens_ptrs_ % 8
        = 0) := by
  refine ⟨by decide, by decide, by decide, rfl, rfl, ?_⟩
  intro h
  exact absurd h.1 (by decide)

/-- C13, amended: with the device buffer at an 8-byte aligned address and the
size of a random state a multiple of 8, the random-state sub-buffer and the
output-token pointer sub-buffer start at multiples of 8 exactly when
`max_batch_size` is even; for an odd `max_batch_size` both start four bytes
past a multiple of 8. -/
theorem ctor_alignment_iff_even (cfg : BatchSchedulerConfig) (rank : Int)
    (device_buffer sizeof_curandState_t : Nat) (mkTopk : Nat → Nat → Nat → TopkSampling)
    (hn : 1 ≤ cfg.max_batch_size) (hbase : device_buffer % 8 = 0)
    (hsz : sizeof_curandState_t % 8 = 0) :
    ((Sampler.ctor cfg rank device_buffer sizeof_curandState_t mkTopk).device_curandstates_ % 8
      = 0 ↔ cfg.max_batch_size % 2 = 0) ∧
    ((Sampler.ctor cfg rank device_buffer sizeof_curandState_t mkTopk).device_output_tokens_ptrs_
      % 8 = 0 ↔ cfg.max_batch_size % 2 = 0) ∧
    (cfg.max_batch_size % 2 = 1 →
      (Sampler.ctor cfg rank device_buffer sizeof_curandState_t mkTopk).device_curandstates_ % 8
        = 4 ∧
      (Sampler.ctor cfg rank device_buffer sizeof_curandState_t mkTopk).device_output_tokens_ptrs_
        % 8 = 4) := by
  have hpos : 0 < cfg.max_batch_size := hn
  obtain ⟨k, hk⟩ : ∃ k, sizeof_curandState_t = 8 * k := ⟨sizeof_curandState_t / 8, by omega⟩
  have hprod : sizeof_curandState_t * cfg.max_batch_size = 8 * (k * cfg.max_batch_size) := by
    rw [hk, Nat.mul_assoc]
  simp only [Sampler.ctor]
  rw [hprod]
  refine ⟨?_, ?_, ?_⟩ <;> omega

/-- C13, amended, at `max_batch_size` 2: the random-state sub-buffer starts at
4120 and the pointer sub-buffer at 4216, both multiples of 8. -/
theorem ctor_alignment_iff_even_witness :
    1 ≤ smallConfig.max_batch_size ∧ 4096 % 8 = 0 ∧ 48 % 8 = 0 ∧
    smallConfig.max_batch_size % 2 = 0 ∧
    (Sampler.ctor smallConfig 0 4096 48 (fun _ _ _ => slotKernel)).device_curandstates_ % 8 = 0 ∧
    (Sampler.ctor smallConfig 0 4096 48 (fun _ _ _ => slotKernel)).device_output_tokens_ptrs_ % 8
      = 0 :=
  ⟨by decide, by decide, by decide, by decide,
    (ctor_alignment_iff_even smallConfig 0 4096 48 (fun _ _ _ => slotKernel) (by decide)
      (by decide) (by decide)).1.mpr (by decide),
    (ctor_alignment_iff_even smallConfig 0 4096 48 (fun _ _ _ => slotKernel) (by decide)
      (by decide) (by decide)).2.1.mpr (by decide)⟩

/-! ## Sampler: unsupported configurations -/

/-- After a passing logits check, the first failing check of a request has the
code `RET_INVALID_ARGUMENT`. -/
theorem firstFailingCheck_code {d l : Nat} {c : SamplingConfig} {s : Status}
    (hl : d = l ∨ d = 0) (h : firstFailingCheck d l c = some s) :
    s.code = RetCode.RET_INVALID_ARGUMENT := by
  unfold firstFailingCheck at h
  rw [if_neg (not_not.mpr hl)] at h
  repeat' split at h
  all_goals first
    | (cases h; done)
    | (cases h; rfl)

/-- After a passing logits check, a request with an unsupported configuration
fails a check. -/
theorem firstFailingCheck_unsupported {d l : Nat} {c : SamplingConfig}
    (hl : d = l ∨ d = 0) (hbad : ¬ c.supported) : ∃ s, firstFailingCheck d l c = some s := by
  unfold firstFailingCheck
  rw [if_neg (not_not.mpr hl)]
  by_cases h1 : c.beam_width ≠ 1
  · exact ⟨_, if_pos h1⟩
  · rw [if_neg h1]
    by_cases h2 : F32.eq c.temperature F32.zero = false
    · exact ⟨_, if_pos h2⟩
    · rw [if_neg h2]
      by_cases h3 : ¬ (F32.eq c.topp F32.zero = true ∨ F32.eq c.topp F32.one = true)
      · exact ⟨_, if_pos h3⟩
      · exfalso
        apply hbad
        exact ⟨not_not.mp h1, by simpa using h2, not_not.mp h3⟩

/-- In a batch whose logits checks pass up to and including a request with an
unsupported configuration, the first failure has the code
`RET_INVALID_ARGUMENT`. -/
theorem firstFailure_unsupported {rank_ : Int} (r : SamplingRequest)
    (post : List SamplingRequest) (hbad : ¬ r.sampling_config.supported)
    (pre : List SamplingRequest) :
    ∀ (i d : Nat), logitsCheckPasses rank_ d (pre ++ [r]) →
      ∃ j s, firstFailure rank_ i d (pre ++ r :: post) = some (j, s) ∧
        s.code = RetCode.RET_INVALID_ARGUMENT := by
  induction pre with
  | nil =>
    intro i d hc
    simp only [logitsCheckPasses, List.nil_append, List.map_cons, List.map_nil,
      List.chain_cons] at hc
    obtain ⟨s, hs⟩ := firstFailingCheck_unsupported hc.1 hbad
    exact ⟨i, s, by simp [firstFailure, hs], firstFailingCheck_code hc.1 hs⟩
  | cons q pre ih =>
    intro i d hc
    simp only [logitsCheckPasses, List.cons_append, List.map_cons, List.chain_cons] at hc
    cases hq : firstFailingCheck d (q.logits rank_) q.sampling_config with
    | some s => exact ⟨i, s, by simp [firstFailure, hq], firstFailingCheck_code hc.1 hq⟩
    | none =>
      obtain ⟨j, s, h1, h2⟩ := ih (i + 1) (q.logits rank_) hc.2
      exact ⟨j, s, by simp [firstFailure, hq, h1], h2⟩

/-- A call on rank 0 returns the status of the first failure of the batch. -/
theorem Sampling_status_of_firstFailure {self : Sampler} {dflt : SamplingDevideParameter}
    {dev : DeviceMem} {heap : Heap} {reqs : List SamplingRequest} {res : Outcome} {i : Nat}
    {s : Status} (h0 : self.rank_ = 0)
    (hf : firstFailure self.rank_ 0 0 reqs = some (i, s))
    (hres : Sampling self dflt dev heap reqs = Except.ok res) : res.status = s := by
  have hloop := @validateLoop_first_failure self.rank_ reqs (loopInit self dflt reqs.length)
  rcases Sampling_ok_cases h0 hres with ⟨s1, st, hv, hs, _⟩ | ⟨st, dev1, hv, _⟩
  · have h1 := hloop.1 s1 st hv
    simp only [loopInit] at h1
    rw [hf] at h1
    cases h1
    exact hs
  · have h1 := hloop.2 st hv
    simp only [loopInit] at h1
    rw [hf] at h1
    cases h1

/-- C1: on rank 0, a batch holding a request whose beam width is not 1, whose
temperature is not 0 or whose top-p is neither 0 nor 1 is never answered with
success.  When the logits checks of the batch pass up to and including such a
request (no logits mismatch is met before its configuration is looked at), the
status returned has the code `RET_INVALID_ARGUMENT`; and the call does return
when the batch fits the sampler and every request carries a logits entry for
the rank. -/
theorem Sampling_rejects_unsupported_config (self : Sampler) (dflt : SamplingDevideParameter)
    (dev : DeviceMem) (heap : Heap) (reqs : List SamplingRequest) (h0 : self.rank_ = 0)
    (hbad : ∃ r ∈ reqs, r.sampling_config.beam_width ≠ 1 ∨
      F32.eq r.sampling_config.temperature F32.zero = false ∨
      (F32.eq r.sampling_config.topp F32.zero = false ∧
        F32.eq r.sampling_config.topp F32.one = false)) :
    (∀ res, Sampling self dflt dev heap reqs = Except.ok res →
      res.status.OK = false ∧
      (res.status ≠ statusDifferentLogits → res.status.code = RetCode.RET_INVALID_ARGUMENT)) ∧
    (∀ pre r post, reqs = pre ++ r :: post →
      (r.sampling_config.beam_width ≠ 1 ∨
        F32.eq r.sampling_config.temperature F32.zero = false ∨
        (F32.eq r.sampling_config.topp F32.zero = false ∧
          F32.eq r.sampling_config.topp F32.one = false)) →
      logitsCheckPasses self.rank_ 0 (pre ++ [r]) →
      (∀ res, Sampling self dflt dev heap reqs = Except.ok res →
        res.status.code = RetCode.RET_INVALID_ARGUMENT) ∧
      (∀ m, self.sized m → reqs.length ≤ m →
        (∀ q ∈ reqs, q.logits_buf[self.rank_.toNat]? ≠ none) →
        ∃ res, Sampling self dflt dev heap reqs = Except.ok res ∧
          res.status.code = RetCode.RET_INVALID_ARGUMENT)) ∧
    (∀ m, self.sized m → reqs.length ≤ m →
      (∀ r ∈ reqs, r.logits_buf[self.rank_.toNat]? ≠ none) →
      ∃ res, Sampling self dflt dev heap reqs = Except.ok res) := by
  have hunsup : ∀ r : SamplingRequest,
      (r.sampling_config.beam_width ≠ 1 ∨
        F32.eq r.sampling_config.temperature F32.zero = false ∨
        (F32.eq r.sampling_config.topp F32.zero = false ∧
          F32.eq r.sampling_config.topp F32.one = false)) →
      ¬ r.sampling_config.supported := by
    intro r hcfg ⟨c1, c2, c3⟩
    rcases hcfg with hcfg | hcfg | hcfg
    · exact hcfg c1
    · rw [c2] at hcfg; cases hcfg
    · rcases c3 with c3 | c3
      · rw [c3] at hcfg; cases hcfg.1
      · rw [c3] at hcfg; cases hcfg.2
  refine ⟨?_, ?_, ?_⟩
  · intro res hres
    rcases Sampling_ok_cases h0 hres with ⟨s, st, hv, hs, _⟩ | ⟨st, dev1, hv, _⟩
    · obtain ⟨v1, v2, _⟩ := validateLoop_ret reqs hv
      rw [hs]
      refine ⟨v2, fun hne => ?_⟩
      rcases v1 with v1 | v1
      · exact absurd v1 hne
      · exact v1
    · exfalso
      obtain ⟨r, hr, hcfg⟩ := hbad
      exact hunsup r hcfg ((validateLoop_next reqs hv).1 r hr).1
  · intro pre r post hsplit hcfg hpass
    obtain ⟨j, s, hf, hcode⟩ := firstFailure_unsupported r post (hunsup r hcfg) pre 0 0 hpass
    rw [← hsplit] at hf
    have hst : ∀ res, Sampling self dflt dev heap reqs = Except.ok res →
        res.status.code = RetCode.RET_INVALID_ARGUMENT := by
      intro res hres
      rw [Sampling_status_of_firstFailure h0 hf hres]
      exact hcode
    refine ⟨hst, ?_⟩
    intro m hs hn hl
    obtain ⟨res, hres⟩ := Sampling_returns dflt dev heap hs hn hl
    exact ⟨res, hres, hst res hres⟩
  · intro m hs hn hl
    exact Sampling_returns dflt dev heap hs hn hl

/-- C1 at batches whose second request, on the logits buffer of the first,
asks for beam width 2, for temperature `1.0f` or for top-p `0.5f`: the logits
checks pass, the call returns, not with success, and with the code
`RET_INVALID_ARGUMENT` (the beam-width, temperature and top-p status). -/
theorem Sampling_rejects_unsupported_config_witness :
    (smallSampler 0 slotKernel).rank_ = 0 ∧
    (beamRequest 4096 2 ∈ rejectedBatch ∧ (beamRequest 4096 2).sampling_config.beam_width ≠ 1) ∧
    rejectedBatch = [topkRequest 1 4096 1] ++ beamRequest 4096 2 :: [] ∧
    logitsCheckPasses (smallSampler 0 slotKernel).rank_ 0
      ([topkRequest 1 4096 1] ++ [beamRequest 4096 2]) ∧
    Sampling (smallSampler 0 slotKernel) zeroParameter zeroDevice smallHeap rejectedBatch =
      Except.ok (smallOutcome 0 slotKernel rejectedBatch) ∧
    (smallOutcome 0 slotKernel rejectedBatch).status.OK = false ∧
    (smallOutcome 0 slotKernel rejectedBatch).status.code = RetCode.RET_INVALID_ARGUMENT ∧
    (∃ res, Sampling (smallSampler 0 slotKernel) zeroParameter zeroDevice smallHeap rejectedBatch =
      Except.ok res ∧ res.status.code = RetCode.RET_INVALID_ARGUMENT) ∧
    (smallOutcome 0 slotKernel rejectedBatch).status = statusBeamWidth ∧
    (smallOutcome 0 slotKernel temperatureBatch).status.code = RetCode.RET_INVALID_ARGUMENT ∧
    (smallOutcome 0 slotKernel temperatureBatch).status = statusTemperature ∧
    (smallOutcome 0 slotKernel toppBatch).status.code = RetCode.RET_INVALID_ARGUMENT ∧
    (smallOutcome 0 slotKernel toppBatch).status = statusTopp := by
  have hmem : beamRequest 4096 2 ∈ rejectedBatch := by simp [rejectedBatch]
  have hbw : (beamRequest 4096 2).sampling_config.beam_width ≠ 1 := by decide
  have hpass : logitsCheckPasses (smallSampler 0 slotKernel).rank_ 0
      ([topkRequest 1 4096 1] ++ [beamRequest 4096 2]) :=
    List.Chain.cons (Or.inr rfl) (List.Chain.cons (Or.inl rfl) List.Chain.nil)
  have key := Sampling_rejects_unsupported_config (smallSampler 0 slotKernel) zeroParameter
    zeroDevice smallHeap rejectedBatch rfl ⟨beamRequest 4096 2, hmem, Or.inl hbw⟩
  have hrun := key.1 (smallOutcome 0 slotKernel rejectedBatch) rfl
  have hcond := key.2.1 [topkRequest 1 4096 1] (beamRequest 4096 2) [] rfl (Or.inl hbw) hpass
  have htemp : F32.eq (temperatureRequest 4096 2).sampling_config.temperature F32.zero = false := by
    decide
  have htopp : F32.eq (toppRequest 4096 2).sampling_config.topp F32.zero = false ∧
      F32.eq (toppRequest 4096 2).sampling_config.topp F32.one = false := by
    decide
  have hcondT := (Sampling_rejects_unsupported_config (smallSampler 0 slotKernel) zeroParameter
    zeroDevice smallHeap temperatureBatch rfl
    ⟨temperatureRequest 4096 2, by simp [temperatureBatch], Or.inr (Or.inl htemp)⟩).2.1
    [topkRequest 1 4096 1] (temperatureRequest 4096 2) [] rfl (Or.inr (Or.inl htemp))
    (List.Chain.cons (Or.inr rfl) (List.Chain.cons (Or.inl rfl) List.Chain.nil))
  have hcondP := (Sampling_rejects_unsupported_config (smallSampler 0 slotKernel) zeroParameter
    zeroDevice smallHeap toppBatch rfl
    ⟨toppRequest 4096 2, by simp [toppBatch], Or.inr (Or.inr htopp)⟩).2.1
    [topkRequest 1 4096 1] (toppRequest 4096 2) [] rfl (Or.inr (Or.inr htopp))
    (List.Chain.cons (Or.inr rfl) (List.Chain.cons (Or.inl rfl) List.Chain.nil))
  exact ⟨rfl, ⟨hmem, hbw⟩, rfl, hpass, rfl, hrun.1,
    hcond.1 (smallOutcome 0 slotKernel rejectedBatch) rfl,
    hcond.2 2 (ctor_sized smallConfig 0 4096 48 _) (by decide) (by decide),
    by decide,
    hcondT.1 (smallOutcome 0 slotKernel temperatureBatch) rfl, by decide,
    hcondP.1 (smallOutcome 0 slotKernel toppBatch) rfl, by decide⟩

end ksana_llm
